import Mathlib

/-!
Verification development for the SITL aircraft physics core
(libraries/SITL/SIM_Aircraft.cpp).

Machine floating point is idealised as the real numbers.  The vector,
matrix, quaternion and geodesy helpers used by the core live in the
AP_Math / Location libraries, which are outside the provided snapshot;
those helpers are modelled from the spec as faithful real-valued
counterparts of the standard ArduPilot definitions and are marked as
such in their doc comments.  Everything else is translated directly
from SIM_Aircraft.cpp.
-/

noncomputable section

/-- Modelled from the spec: standard gravity constant GRAVITY_MSS (m/s/s). -/
def GRAVITY_MSS : ℝ := 9.80665

/-- Modelled from the spec: degree-to-radian conversion helper. -/
def radians (x : ℝ) : ℝ := x * (Real.pi / 180)

/-- Modelled from the spec: radian-to-degree conversion helper. -/
def degrees (x : ℝ) : ℝ := x * (180 / Real.pi)

/-- Modelled from the spec: AP_Math constrain_float, clamping a value to a closed interval. -/
def constrain_float (v lo hi : ℝ) : ℝ := if v < lo then lo else if hi < v then hi else v

/-- Modelled from the spec: C truncation toward zero of a real value to an integer,
    as performed by a static_cast to an integral type. -/
def f2i (x : ℝ) : ℤ := if 0 ≤ x then ⌊x⌋ else -⌊-x⌋

/-- Modelled from the spec: wrapping subtraction of 64-bit unsigned wall-clock samples. -/
def u64sub (a b : ℕ) : ℕ := (a + 2 ^ 64 - b) % 2 ^ 64

/-- Modelled from the spec: wrapping subtraction of 32-bit unsigned millisecond samples. -/
def u32sub (a b : ℕ) : ℕ := (a + 2 ^ 32 - b) % 2 ^ 32

/-- Modelled from the spec: conversion of a non-negative real duration to a 32-bit
    unsigned integer, truncating toward zero. -/
def u32cast (x : ℝ) : ℕ := (f2i x).toNat

/-- Modelled from the spec: three-component earth/body frame vector (AP_Math Vector3f). -/
@[ext] structure Vec3 where
  x : ℝ
  y : ℝ
  z : ℝ

namespace Vec3

/-- Modelled from the spec: the zero vector. -/
def zero : Vec3 := ⟨0, 0, 0⟩

instance : Add Vec3 := ⟨fun v w => ⟨v.x + w.x, v.y + w.y, v.z + w.z⟩⟩

instance : Sub Vec3 := ⟨fun v w => ⟨v.x - w.x, v.y - w.y, v.z - w.z⟩⟩

instance : Neg Vec3 := ⟨fun v => ⟨-v.x, -v.y, -v.z⟩⟩

/-- Modelled from the spec: scalar multiplication of a vector. -/
def smul (v : Vec3) (c : ℝ) : Vec3 := ⟨v.x * c, v.y * c, v.z * c⟩

/-- Modelled from the spec: componentwise division of a vector by a scalar. -/
def sdiv (v : Vec3) (c : ℝ) : Vec3 := ⟨v.x / c, v.y / c, v.z / c⟩

/-- Modelled from the spec: euclidean dot product. -/
def dot (v w : Vec3) : ℝ := v.x * w.x + v.y * w.y + v.z * w.z

/-- Modelled from the spec: cross product. -/
def cross (v w : Vec3) : Vec3 :=
  ⟨v.y * w.z - v.z * w.y, v.z * w.x - v.x * w.z, v.x * w.y - v.y * w.x⟩

/-- Modelled from the spec: euclidean length of a vector. -/
def length (v : Vec3) : ℝ := Real.sqrt (v.x * v.x + v.y * v.y + v.z * v.z)

end Vec3

/-- Modelled from the spec: 3x3 orientation matrix stored by rows (AP_Math Matrix3f). -/
@[ext] structure Mat3 where
  a : Vec3
  b : Vec3
  c : Vec3

namespace Mat3

/-- Modelled from the spec: the identity rotation. -/
def identity : Mat3 := ⟨⟨1, 0, 0⟩, ⟨0, 1, 0⟩, ⟨0, 0, 1⟩⟩

/-- Modelled from the spec: matrix-vector product (rows dotted with the vector). -/
def mulVec (m : Mat3) (v : Vec3) : Vec3 := ⟨m.a.dot v, m.b.dot v, m.c.dot v⟩

/-- Modelled from the spec: matrix transpose. -/
def transposed (m : Mat3) : Mat3 :=
  ⟨⟨m.a.x, m.b.x, m.c.x⟩, ⟨m.a.y, m.b.y, m.c.y⟩, ⟨m.a.z, m.b.z, m.c.z⟩⟩

/-- Modelled from the spec: matrix-matrix product. -/
def mul (m n : Mat3) : Mat3 :=
  ⟨⟨m.a.x * n.a.x + m.a.y * n.b.x + m.a.z * n.c.x,
    m.a.x * n.a.y + m.a.y * n.b.y + m.a.z * n.c.y,
    m.a.x * n.a.z + m.a.y * n.b.z + m.a.z * n.c.z⟩,
   ⟨m.b.x * n.a.x + m.b.y * n.b.x + m.b.z * n.c.x,
    m.b.x * n.a.y + m.b.y * n.b.y + m.b.z * n.c.y,
    m.b.x * n.a.z + m.b.y * n.b.z + m.b.z * n.c.z⟩,
   ⟨m.c.x * n.a.x + m.c.y * n.b.x + m.c.z * n.c.x,
    m.c.x * n.a.y + m.c.y * n.b.y + m.c.z * n.c.y,
    m.c.x * n.a.z + m.c.y * n.b.z + m.c.z * n.c.z⟩⟩

/-- Modelled from the spec: build an orientation matrix from 321-euler angles
    (AP_Math Matrix3f::from_euler). -/
def from_euler (roll pitch yaw : ℝ) : Mat3 :=
  let cp := Real.cos pitch
  let sp := Real.sin pitch
  let sr := Real.sin roll
  let cr := Real.cos roll
  let sy := Real.sin yaw
  let cy := Real.cos yaw
  ⟨⟨cp * cy, (sr * sp * cy) - (cr * sy), (cr * sp * cy) + (sr * sy)⟩,
   ⟨cp * sy, (sr * sp * sy) + (cr * cy), (cr * sp * sy) - (sr * cy)⟩,
   ⟨-sp, sr * cp, cr * cp⟩⟩

/-- Modelled from the spec: small-angle rotation of an orientation matrix,
    adding to each row its cross product with the angle vector
    (AP_Math Matrix3f::rotate). -/
def rotate (m : Mat3) (g : Vec3) : Mat3 :=
  ⟨m.a + m.a.cross g, m.b + m.b.cross g, m.c + m.c.cross g⟩

/-- Modelled from the spec: re-orthonormalisation of an orientation matrix
    (AP_Math Matrix3f::normalize). -/
def normalize (m : Mat3) : Mat3 :=
  let error := m.a.dot m.b
  let t0 := m.a - m.b.smul (0.5 * error)
  let t1 := m.b - m.a.smul (0.5 * error)
  let t2 := t0.cross t1
  ⟨t0.smul (1 / t0.length), t1.smul (1 / t1.length), t2.smul (1 / t2.length)⟩

end Mat3

/-- Modelled from the spec: the four-quadrant arctangent as computed by atan2f. -/
def atan2 (y x : ℝ) : ℝ :=
  if 0 < x then Real.arctan (y / x)
  else if x < 0 then
    (if 0 ≤ y then Real.arctan (y / x) + Real.pi else Real.arctan (y / x) - Real.pi)
  else (if 0 < y then Real.pi / 2 else if y < 0 then -(Real.pi / 2) else 0)

/-- Modelled from the spec: AP_Math safe_asin, an arcsine that saturates outside
    the unit interval instead of returning NaN. -/
def safe_asin (v : ℝ) : ℝ :=
  if 1 ≤ v then Real.pi / 2
  else if v ≤ -1 then -(Real.pi / 2)
  else Real.arcsin v

/-- Modelled from the spec: extraction of 321-euler angles from an orientation
    matrix (AP_Math Matrix3f::to_euler); the result is (roll, pitch, yaw). -/
def Mat3.to_euler (m : Mat3) : ℝ × ℝ × ℝ :=
  (atan2 m.c.y m.c.z, -safe_asin m.c.x, atan2 m.b.x m.a.x)

/-- Modelled from the spec: real-valued fmod, subtracting the truncated quotient. -/
def rfmod (a b : ℝ) : ℝ := a - b * (f2i (a / b) : ℝ)

/-- Modelled from the spec: wrap an angle into the interval from 0 to 2 pi. -/
def wrap_2PI (x : ℝ) : ℝ :=
  let r := rfmod x (2 * Real.pi)
  if r < 0 then r + 2 * Real.pi else r

/-- Modelled from the spec: wrap an angle into the interval from minus pi to pi. -/
def wrap_PI (x : ℝ) : ℝ :=
  let r := wrap_2PI x
  if Real.pi < r then r - 2 * Real.pi else r

/-- Modelled from the spec: quaternion with scalar part q1 (AP_Math Quaternion). -/
@[ext] structure Quat where
  q1 : ℝ
  q2 : ℝ
  q3 : ℝ
  q4 : ℝ

namespace Quat

/-- Modelled from the spec: conversion of an orientation matrix to a quaternion
    (AP_Math Quaternion::from_rotation_matrix), with the standard four branches. -/
def from_rotation_matrix (m : Mat3) : Quat :=
  let m00 := m.a.x
  let m11 := m.b.y
  let m22 := m.c.z
  let m10 := m.b.x
  let m01 := m.a.y
  let m20 := m.c.x
  let m02 := m.a.z
  let m21 := m.c.y
  let m12 := m.b.z
  let tr := m00 + m11 + m22
  if 0 < tr then
    let s := Real.sqrt (tr + 1) * 2
    ⟨0.25 * s, (m21 - m12) / s, (m02 - m20) / s, (m10 - m01) / s⟩
  else if m11 < m00 ∧ m22 < m00 then
    let s := Real.sqrt (1 + m00 - m11 - m22) * 2
    ⟨(m21 - m12) / s, 0.25 * s, (m01 + m10) / s, (m02 + m20) / s⟩
  else if m22 < m11 then
    let s := Real.sqrt (1 + m11 - m00 - m22) * 2
    ⟨(m02 - m20) / s, (m01 + m10) / s, 0.25 * s, (m12 + m21) / s⟩
  else
    let s := Real.sqrt (1 + m22 - m00 - m11) * 2
    ⟨(m10 - m01) / s, (m02 + m20) / s, (m12 + m21) / s, 0.25 * s⟩

/-- Modelled from the spec: quaternion magnitude. -/
def length (q : Quat) : ℝ := Real.sqrt (q.q1 * q.q1 + q.q2 * q.q2 + q.q3 * q.q3 + q.q4 * q.q4)

/-- Modelled from the spec: quaternion normalisation; a zero quaternion is left alone. -/
def normalize (q : Quat) : Quat :=
  if q.length = 0 then q
  else ⟨q.q1 / q.length, q.q2 / q.length, q.q3 / q.length, q.q4 / q.length⟩

/-- Modelled from the spec: quaternion division (AP_Math Quaternion division operator),
    multiplying by the conjugate of the divisor over its squared norm. -/
def div (q v : Quat) : Quat :=
  let d := v.q1 * v.q1 + v.q2 * v.q2 + v.q3 * v.q3 + v.q4 * v.q4
  ⟨(v.q1 * q.q1 + v.q2 * q.q2 + v.q3 * q.q3 + v.q4 * q.q4) / d,
   (v.q1 * q.q2 - v.q2 * q.q1 - v.q3 * q.q4 + v.q4 * q.q3) / d,
   (v.q1 * q.q3 + v.q2 * q.q4 - v.q3 * q.q1 - v.q4 * q.q2) / d,
   (v.q1 * q.q4 - v.q2 * q.q3 + v.q3 * q.q2 - v.q4 * q.q1) / d⟩

/-- Modelled from the spec: conversion of a quaternion to an axis-angle vector
    (AP_Math Quaternion::to_axis_angle). -/
def to_axis_angle (q : Quat) : Vec3 :=
  let l := Real.sqrt (q.q2 * q.q2 + q.q3 * q.q3 + q.q4 * q.q4)
  if l = 0 then ⟨q.q2, q.q3, q.q4⟩
  else (Vec3.sdiv ⟨q.q2, q.q3, q.q4⟩ l).smul (wrap_PI (2 * atan2 l q.q1))

end Quat

/-- Modelled from the spec: geodetic location with fixed-point latitude, longitude
    (degrees times ten million) and centimetre altitude. -/
@[ext] structure Location where
  lat : ℤ
  lng : ℤ
  alt : ℤ

/-- Modelled from the spec: metres-to-latitude-units scaling constant
    used by the Location offset helper. -/
def LOCATION_SCALING_FACTOR_INV : ℝ := 89.83204953368922

/-- Modelled from the spec: longitude scaling by the cosine of latitude, floored at
    one percent (Location::longitude_scale). -/
def longitude_scale (l : Location) : ℝ :=
  max (Real.cos ((l.lat : ℝ) * (1e-7 * (Real.pi / 180)))) 0.01

/-- Modelled from the spec: offset a geodetic location by metres north and east
    (Location::offset). -/
def Location.offset (l : Location) (ofs_north ofs_east : ℝ) : Location :=
  let dlat := f2i (ofs_north * LOCATION_SCALING_FACTOR_INV)
  let dlng := f2i ((ofs_east * LOCATION_SCALING_FACTOR_INV) / longitude_scale l)
  { l with lat := l.lat + dlat, lng := l.lng + dlng }

/-- Ground behaviour selector consulted by the ground contact state machine
    (SIM_Aircraft.h GroundBehaviour, spec GroundBehaviorMode). -/
inductive GroundBehaviour where
  | NONE
  | NO_MOVEMENT
  | FWD_ONLY
  | TAILSITTER
deriving DecidableEq

/-- Modelled from the spec: decode the externally selected ground behaviour id
    (SIM_GND_BEHAV parameter value cast to the GroundBehaviour enum). -/
def toGroundBehaviour (i : ℤ) : GroundBehaviour :=
  if i = 1 then .NO_MOVEMENT
  else if i = 2 then .FWD_ONLY
  else if i = 3 then .TAILSITTER
  else .NONE

/-- Shadow state maintained by the kinematic smoothing filter
    (SIM_Aircraft.h smoothing struct, spec SmoothedState). -/
structure SmoothState where
  enabled : Bool
  position : Vec3
  rotation_b2e : Mat3
  accel_body : Vec3
  velocity_ef : Vec3
  gyro : Vec3
  last_update_us : ℕ
  location : Location

/-- Disturbance injector state for one instance (shove or twist): magnitude
    vector, duration in milliseconds and wall-clock start timestamp
    (SITL shove/twist parameter groups). -/
structure Disturb where
  x : ℝ
  y : ℝ
  z : ℝ
  t : ℝ
  start_ms : ℕ

/-- Mutable per-vehicle simulator state: the fields of the Aircraft class
    that the embedded functions read or write.  External collaborator values
    (terrain correction) are carried as fields holding the value the
    collaborator returns this tick. -/
structure Aircraft where
  home : Location
  ground_level : ℝ
  frame_height : ℝ
  dcm : Mat3
  gyro : Vec3
  gyro_prev : Vec3
  ang_accel : Vec3
  velocity_ef : Vec3
  position : Vec3
  accel_body : Vec3
  wind_ef : Vec3
  velocity_air_ef : Vec3
  velocity_air_bf : Vec3
  airspeed : ℝ
  airspeed_pitot : ℝ
  location : Location
  use_smoothing : Bool
  smoothing : SmoothState
  ground_behavior : GroundBehaviour
  terrain_diff : ℝ
  rate_hz : ℝ
  frame_time_us : ℕ
  target_speedup : ℝ
  scaled_frame_time_us : ℝ
  achieved_rate_hz : ℝ
  last_wall_time_us : ℕ
  last_ground_contact_ms : ℕ
  time_now_us : ℕ
  mag_bf : Vec3
  battery_voltage : ℝ
  battery_current : ℝ
  num_motors : ℕ
  rpm : List ℝ
  rcin_chan_count : ℕ
  rcin : List ℝ
  range : ℝ
  scanner_points : List ℝ
  scanner_ranges : List ℝ
  ahrs_orientation : Option ℤ
  last_imu_rotation : ℤ
  ahrs_rotation : Mat3
  ahrs_rotation_inv : Mat3
  custom_roll : Option ℝ
  custom_pitch : Option ℝ
  custom_yaw : Option ℝ
  last_speedup : ℝ

/-- Height above ground level in metres, evaluated at a given position vector:
    negated down-position plus home altitude in metres, minus ground level,
    frame height and the terrain correction returned by the terrain
    collaborator (Aircraft::hagl, lines 131-134). -/
def haglAt (s : Aircraft) (pos : Vec3) : ℝ :=
  (-pos.z) + (s.home.alt : ℝ) * 0.01 - s.ground_level - s.frame_height - s.terrain_diff

/-- Ground contact predicate: height above ground level of at most one
    millimetre (Aircraft::on_ground, lines 138-141). -/
def on_groundAt (s : Aircraft) (pos : Vec3) : Prop := haglAt s pos ≤ 0.001

instance (s : Aircraft) (pos : Vec3) : Decidable (on_groundAt s pos) := by
  unfold on_groundAt; infer_instance

/-- Tick duration in seconds derived from the microsecond frame time
    (update_dynamics line 484). -/
def delta_t (s : Aircraft) : ℝ := (s.frame_time_us : ℝ) * 1e-6

/-- Body angular rate after integrating the rotational acceleration over one
    tick and clamping every axis to 2000 degrees per second
    (update_dynamics lines 487-491). -/
def gyro1 (s : Aircraft) (rot_accel : Vec3) : Vec3 :=
  let g := s.gyro + rot_accel.smul (delta_t s)
  ⟨constrain_float g.x (-(radians 2000)) (radians 2000),
   constrain_float g.y (-(radians 2000)) (radians 2000),
   constrain_float g.z (-(radians 2000)) (radians 2000)⟩

/-- Angular acceleration estimated as a first order backward difference
    (update_dynamics line 495). -/
def ang_accel1 (s : Aircraft) (rot_accel : Vec3) : Vec3 :=
  (gyro1 s rot_accel - s.gyro_prev).sdiv (delta_t s)

/-- Orientation after rotating by the new rate over one tick and
    re-orthonormalising (update_dynamics lines 499-500). -/
def dcm1 (s : Aircraft) (rot_accel : Vec3) : Mat3 :=
  (s.dcm.rotate ((gyro1 s rot_accel).smul (delta_t s))).normalize

/-- Earth-frame acceleration before the ground reaction clamp: body specific
    force rotated to earth frame plus gravity (update_dynamics lines 502-503). -/
def accel_earth_raw (s : Aircraft) (rot_accel : Vec3) : Vec3 :=
  (dcm1 s rot_accel).mulVec s.accel_body + ⟨0, 0, GRAVITY_MSS⟩

/-- Earth-frame acceleration with the vertical component clamped to
    non-positive while in ground contact (update_dynamics lines 507-509);
    the contact test here uses the not-yet-integrated position. -/
def accel_earth1 (s : Aircraft) (rot_accel : Vec3) : Vec3 :=
  let ae := accel_earth_raw s rot_accel
  if on_groundAt s s.position ∧ 0 < ae.z then ⟨ae.x, ae.y, 0⟩ else ae

/-- Specific force as seen by the accelerometers: kinematic acceleration plus
    gravity rotated back into body frame (update_dynamics line 513). -/
def accel_body1 (s : Aircraft) (rot_accel : Vec3) : Vec3 :=
  (dcm1 s rot_accel).transposed.mulVec (accel_earth1 s rot_accel + ⟨0, 0, -GRAVITY_MSS⟩)

/-- Earth-frame velocity after one explicit Euler step
    (update_dynamics line 516). -/
def velocity1 (s : Aircraft) (rot_accel : Vec3) : Vec3 :=
  s.velocity_ef + (accel_earth1 s rot_accel).smul (delta_t s)

/-- Position after one explicit Euler step (update_dynamics line 520). -/
def position1 (s : Aircraft) (rot_accel : Vec3) : Vec3 :=
  s.position + (velocity1 s rot_accel).smul (delta_t s)

/-- Velocity relative to the air mass in earth frame: the new ground velocity
    plus the wind model vector (update_dynamics line 523). -/
def velocity_air_ef1 (s : Aircraft) (rot_accel : Vec3) : Vec3 :=
  velocity1 s rot_accel + s.wind_ef

/-- Air-relative velocity rotated into body frame (update_dynamics line 526). -/
def velocity_air_bf1 (s : Aircraft) (rot_accel : Vec3) : Vec3 :=
  (dcm1 s rot_accel).transposed.mulVec (velocity_air_ef1 s rot_accel)

/-- Reported airspeed: magnitude of the air-relative velocity
    (update_dynamics line 529). -/
def airspeed1 (s : Aircraft) (rot_accel : Vec3) : ℝ :=
  (velocity_air_ef1 s rot_accel).length

/-- Airspeed seen by a forward pitot tube: body-x component of the
    air-relative velocity clamped to the interval from 0 to 120 metres per
    second (update_dynamics lines 531-532). -/
def airspeed_pitot1 (s : Aircraft) (rot_accel : Vec3) : ℝ :=
  constrain_float ((velocity_air_bf1 s rot_accel).dot ⟨1, 0, 0⟩) 0 120

/-- Frame-rate re-tuning at the end of every dynamics step
    (Aircraft::adjust_frame_time, lines 243-250). -/
def adjust_frame_time (s : Aircraft) (new_rate : ℝ) : Aircraft :=
  if s.rate_hz = new_rate then s
  else
    { s with rate_hz := new_rate,
             frame_time_us := (f2i (1e6 / new_rate)).toNat,
             scaled_frame_time_us := ((f2i (1e6 / new_rate)).toNat : ℝ) / s.target_speedup }

/-- One step of the rigid-body dynamics integrator and ground contact state
    machine (Aircraft::update_dynamics, lines 482-604).  The telemetry text
    message is a side effect outside the physical state and is not modelled;
    its rate-limiting timestamp update is.  now_ms is the wall-clock
    millisecond sample and loop_rate_hz the externally configured loop rate. -/
def update_dynamics (s : Aircraft) (rot_accel : Vec3) (now_ms : ℕ) (loop_rate_hz : ℝ) :
    Aircraft :=
  let was_on_ground := on_groundAt s s.position
  let pos1 := position1 s rot_accel
  let base : Aircraft :=
    { s with gyro := gyro1 s rot_accel,
             ang_accel := ang_accel1 s rot_accel,
             gyro_prev := gyro1 s rot_accel,
             dcm := dcm1 s rot_accel,
             accel_body := accel_body1 s rot_accel,
             velocity_ef := velocity1 s rot_accel,
             position := pos1,
             velocity_air_ef := velocity_air_ef1 s rot_accel,
             velocity_air_bf := velocity_air_bf1 s rot_accel,
             airspeed := airspeed1 s rot_accel,
             airspeed_pitot := airspeed_pitot1 s rot_accel }
  let stepped : Aircraft :=
    if on_groundAt s pos1 then
      let contact : Aircraft :=
        { base with
            last_ground_contact_ms :=
              if ¬ was_on_ground ∧ 1000 < u32sub now_ms s.last_ground_contact_ms
              then now_ms else s.last_ground_contact_ms,
            position := ⟨pos1.x, pos1.y,
              -(s.ground_level + s.frame_height - (s.home.alt : ℝ) * 0.01 + s.terrain_diff)⟩ }
      match s.ground_behavior with
      | .NONE => contact
      | .NO_MOVEMENT =>
        let e := (dcm1 s rot_accel).to_euler
        let v := velocity1 s rot_accel
        { contact with
            dcm := Mat3.from_euler 0 0 e.2.2,
            velocity_ef := ⟨0, 0, if 0 < v.z then 0 else v.z⟩,
            gyro := Vec3.zero,
            use_smoothing := true }
      | .FWD_ONLY =>
        let e := (dcm1 s rot_accel).to_euler
        let v := velocity1 s rot_accel
        let p := if v.length < 5 then 0 else max e.2.1 0
        let m := Mat3.from_euler 0 p e.2.2
        let v_bf0 := m.transposed.mulVec v
        let v_bf : Vec3 := ⟨if v_bf0.x < 0 then 0 else v_bf0.x, 0, v_bf0.z⟩
        let w := m.mulVec v_bf
        { contact with
            dcm := m,
            velocity_ef := ⟨w.x, w.y, if 0 < w.z then 0 else w.z⟩,
            gyro := Vec3.zero,
            use_smoothing := true }
      | .TAILSITTER =>
        let e := (dcm1 s rot_accel).to_euler
        { contact with
            dcm := Mat3.from_euler 0 (radians 90) e.2.2,
            velocity_ef :=
              if -1.1 * GRAVITY_MSS < (accel_earth1 s rot_accel).z then Vec3.zero
              else velocity1 s rot_accel,
            gyro := Vec3.zero,
            use_smoothing := true }
    else base
  adjust_frame_time stepped (constrain_float loop_rate_hz (s.rate_hz - 1) (s.rate_hz + 1))

/-- Update of the externally visible location from the relative position
    (Aircraft::update_position, lines 146-151). -/
def update_position (s : Aircraft) : Aircraft :=
  let l := s.home.offset s.position.x s.position.y
  { s with location := { l with alt := f2i ((s.home.alt : ℝ) - s.position.z * 100) } }

/-- Elapsed time in seconds between the current simulation clock and the last
    smoothing update (smooth_sensors line 655); the microsecond difference is
    a 64-bit unsigned subtraction. -/
def smooth_delta_time (s : Aircraft) : ℝ :=
  (u64sub s.time_now_us s.smoothing.last_update_us : ℝ) * 1e-6

/-- One update of the kinematic smoothing filter
    (Aircraft::smooth_sensors, lines 640-730).  On first use or on a
    positional divergence of more than ten metres the smoothed state is
    reset to the truth state; an update whose elapsed time is negative or
    larger than a tenth of a second is skipped; otherwise a synthetic
    acceleration and body rate are derived and integrated.  The reset
    diagnostic printf is a side effect outside the state and not modelled. -/
def smooth_sensors (s : Aircraft) : Aircraft :=
  let now := s.time_now_us
  let delta_pos := s.position - s.smoothing.position
  if s.smoothing.last_update_us = 0 ∨ 10 < delta_pos.length then
    { s with smoothing :=
        { s.smoothing with
            position := s.position,
            rotation_b2e := s.dcm,
            accel_body := s.accel_body,
            velocity_ef := s.velocity_ef,
            gyro := s.gyro,
            last_update_us := now,
            location := s.location } }
  else
    let delta_time := smooth_delta_time s
    if delta_time < 0 ∨ 0.1 < delta_time then s
    else
      let time_constant : ℝ := 0.1
      let dvel := (s.velocity_ef - s.smoothing.velocity_ef) + delta_pos.sdiv time_constant
      let accel_e0 := dvel.sdiv time_constant +
        (s.dcm.mulVec s.accel_body + ⟨0, 0, GRAVITY_MSS⟩)
      let accel_limit := 14 * GRAVITY_MSS
      let accel_e : Vec3 :=
        ⟨constrain_float accel_e0.x (-accel_limit) accel_limit,
         constrain_float accel_e0.y (-accel_limit) accel_limit,
         constrain_float accel_e0.z (-accel_limit) accel_limit⟩
      let new_accel_body :=
        s.smoothing.rotation_b2e.transposed.mulVec (accel_e + ⟨0, 0, -GRAVITY_MSS⟩)
      let desired_q := (Quat.from_rotation_matrix s.dcm).normalize
      let current_q := (Quat.from_rotation_matrix s.smoothing.rotation_b2e).normalize
      let error_q := (desired_q.div current_q).normalize
      let angle_differential := error_q.to_axis_angle
      let new_gyro := s.gyro + angle_differential.sdiv time_constant
      let new_rotation := (s.smoothing.rotation_b2e.rotate (new_gyro.smul delta_time)).normalize
      let new_velocity := s.smoothing.velocity_ef + accel_e.smul delta_time
      let new_position := s.smoothing.position + new_velocity.smul delta_time
      let l := s.home.offset new_position.x new_position.y
      let new_location : Location :=
        { l with alt := f2i ((s.home.alt : ℝ) - new_position.z * 100) }
      { s with smoothing :=
          { enabled := true,
            position := new_position,
            rotation_b2e := new_rotation,
            accel_body := new_accel_body,
            velocity_ef := new_velocity,
            gyro := new_gyro,
            last_update_us := now,
            location := new_location } }

/-- Rotation enum value denoting no mounting rotation. -/
def ROTATION_NONE : ℤ := 0

/-- Modelled from the spec: rotation enum value denoting the custom mounting
    rotation, which is indistinguishable from no rotation in the matrix
    representation and must be handled by reading three extra angle
    parameters. -/
def ROTATION_CUSTOM : ℤ := 100

/-- Externally visible flight dynamics snapshot (struct sitl_fdm), restricted
    to the fields fill_fdm assigns. -/
structure SitlFdm where
  timestamp_us : ℕ
  home : Location
  latitude : ℝ
  longitude : ℝ
  altitude : ℝ
  heading : ℝ
  speedN : ℝ
  speedE : ℝ
  speedD : ℝ
  xAccel : ℝ
  yAccel : ℝ
  zAccel : ℝ
  rollRate : ℝ
  pitchRate : ℝ
  yawRate : ℝ
  angAccel : Vec3
  rollDeg : ℝ
  pitchDeg : ℝ
  yawDeg : ℝ
  quaternion : Quat
  airspeed : ℝ
  battery_voltage : ℝ
  battery_current : ℝ
  num_motors : ℕ
  rpm : List ℝ
  rcin_chan_count : ℕ
  rcin : List ℝ
  range : ℝ
  bodyMagField : Vec3
  scanner_points : List ℝ
  scanner_ranges : List ℝ

/-- Reconfiguration of the frame timing on a speedup change
    (Aircraft::setup_frame_time via set_speedup, lines 231-240 and 459-462);
    wall_now is the current wall-clock microsecond sample. -/
def setup_frame_time (s : Aircraft) (new_rate new_speedup : ℝ) (wall_now : ℕ) : Aircraft :=
  { s with rate_hz := new_rate,
           target_speedup := new_speedup,
           frame_time_us := (f2i (1e6 / new_rate)).toNat,
           scaled_frame_time_us := ((f2i (1e6 / new_rate)).toNat : ℝ) / new_speedup,
           last_wall_time_us := wall_now,
           achieved_rate_hz := new_rate }

/-- Truth-state part of the snapshot assembly (Aircraft::fill_fdm,
    lines 338-377): every field filled from the truth state. -/
def fdm_truth (s1 : Aircraft) (fdm : SitlFdm) : SitlFdm :=
  let e := s1.dcm.to_euler
  { timestamp_us := s1.time_now_us,
    home := if fdm.home.lat = 0 ∧ fdm.home.lng = 0 then s1.home else fdm.home,
    latitude := (s1.location.lat : ℝ) * 1e-7,
    longitude := (s1.location.lng : ℝ) * 1e-7,
    altitude := (s1.location.alt : ℝ) * 1e-2,
    heading := degrees (atan2 s1.velocity_ef.y s1.velocity_ef.x),
    speedN := s1.velocity_ef.x,
    speedE := s1.velocity_ef.y,
    speedD := s1.velocity_ef.z,
    xAccel := s1.accel_body.x,
    yAccel := s1.accel_body.y,
    zAccel := s1.accel_body.z,
    rollRate := degrees s1.gyro.x,
    pitchRate := degrees s1.gyro.y,
    yawRate := degrees s1.gyro.z,
    angAccel := ⟨degrees s1.ang_accel.x, degrees s1.ang_accel.y, degrees s1.ang_accel.z⟩,
    rollDeg := degrees e.1,
    pitchDeg := degrees e.2.1,
    yawDeg := degrees e.2.2,
    quaternion := Quat.from_rotation_matrix s1.dcm,
    airspeed := s1.airspeed_pitot,
    battery_voltage := s1.battery_voltage,
    battery_current := s1.battery_current,
    num_motors := s1.num_motors,
    rpm := s1.rpm.take s1.num_motors,
    rcin_chan_count := s1.rcin_chan_count,
    rcin := s1.rcin.take s1.rcin_chan_count,
    range := s1.range,
    bodyMagField := s1.mag_bf,
    scanner_points := s1.scanner_points,
    scanner_ranges := s1.scanner_ranges }

/-- Smoothed-state override of the snapshot (Aircraft::fill_fdm,
    lines 379-392): accelerations, rates, speeds and geodetic position are
    replaced by the smoothed values when the smoothing state is enabled;
    the attitude fields are left untouched. -/
def fdm_smoothed (s1 : Aircraft) (f : SitlFdm) : SitlFdm :=
  if s1.smoothing.enabled then
    { f with
        xAccel := s1.smoothing.accel_body.x,
        yAccel := s1.smoothing.accel_body.y,
        zAccel := s1.smoothing.accel_body.z,
        rollRate := degrees s1.smoothing.gyro.x,
        pitchRate := degrees s1.smoothing.gyro.y,
        yawRate := degrees s1.smoothing.gyro.z,
        speedN := s1.smoothing.velocity_ef.x,
        speedE := s1.smoothing.velocity_ef.y,
        speedD := s1.smoothing.velocity_ef.z,
        latitude := (s1.smoothing.location.lat : ℝ) * 1e-7,
        longitude := (s1.smoothing.location.lng : ℝ) * 1e-7,
        altitude := (s1.smoothing.location.alt : ℝ) * 1e-2 }
  else f

/-- Attitude re-derivation for a non-trivial sensor mounting rotation
    (Aircraft::fill_fdm, lines 418-427): the reported euler angles and
    quaternion are recomputed from the truth orientation composed with the
    inverse mounting rotation. -/
def fdm_attitude (s2 : Aircraft) (f : SitlFdm) : SitlFdm :=
  let m := s2.dcm.mul s2.ahrs_rotation_inv
  let e2 := m.to_euler
  { f with
      rollDeg := degrees e2.1,
      pitchDeg := degrees e2.2.1,
      yawDeg := degrees e2.2.2,
      quaternion := Quat.from_rotation_matrix m }

/-- Refresh of the cached mounting rotation when the configured value
    changes (Aircraft::fill_fdm, lines 394-417).  The custom rotation reads
    three extra angle parameters; if they cannot be resolved the code
    panics, modelled as a none result.  The cached last rotation value is
    only advanced on the non-custom path, as in the source. -/
def refresh_ahrs_rotation (s1 : Aircraft) (imu_rotation : ℤ)
    (from_rotation : ℤ → Mat3) : Option Aircraft :=
  if imu_rotation ≠ s1.last_imu_rotation then
    if imu_rotation = ROTATION_CUSTOM then
      match s1.custom_roll, s1.custom_pitch, s1.custom_yaw with
      | some cr, some cp, some cy =>
        let m := Mat3.from_euler (radians cr) (radians cp) (radians cy)
        some { s1 with ahrs_rotation := m, ahrs_rotation_inv := m.transposed }
      | _, _, _ => none
    else
      let m := from_rotation imu_rotation
      some { s1 with ahrs_rotation := m, ahrs_rotation_inv := m.transposed,
                     last_imu_rotation := imu_rotation }
  else some s1

/-- Assembly of the flight dynamics snapshot from the simulator state
    (Aircraft::fill_fdm, lines 333-434).  sitl_speedup is the configured
    speedup parameter, from_rotation the external AP_Math lookup from a
    rotation enum value to its matrix, and wall_now the wall-clock sample
    used if the speedup changes.  The fatal configuration error when custom
    mounting angles cannot be resolved is modelled as a none result. -/
def fill_fdm (s : Aircraft) (fdm : SitlFdm) (sitl_speedup : ℝ)
    (from_rotation : ℤ → Mat3) (wall_now : ℕ) : Option (Aircraft × SitlFdm) :=
  let s1 := if s.use_smoothing then smooth_sensors s else s
  let fdm2 := fdm_smoothed s1 (fdm_truth s1 fdm)
  let step2 : Option (Aircraft × SitlFdm) :=
    match s1.ahrs_orientation with
    | none => some (s1, fdm2)
    | some imu_rotation =>
      match refresh_ahrs_rotation s1 imu_rotation from_rotation with
      | none => none
      | some s2 =>
        if imu_rotation ≠ ROTATION_NONE then some (s2, fdm_attitude s2 fdm2)
        else some (s2, fdm2)
  match step2 with
  | none => none
  | some (s3, fdm3) =>
    if s3.last_speedup ≠ sitl_speedup ∧ 0 < sitl_speedup then
      some ({ setup_frame_time s3 s3.rate_hz sitl_speedup wall_now with
                last_speedup := sitl_speedup }, fdm3)
    else some (s3, fdm3)

/-- One call of the linear disturbance injector
    (Aircraft::add_shove_forces, lines 824-845): given the shove state, the
    accumulated body acceleration and the wall-clock millisecond sample,
    return the updated shove state and body acceleration. -/
def add_shove_forces (sh : Disturb) (body_accel : Vec3) (now : ℕ) : Disturb × Vec3 :=
  if sh.t = 0 then (sh, body_accel)
  else
    let start := if sh.start_ms = 0 then now else sh.start_ms
    if u32sub now start < u32cast sh.t then
      ({ sh with start_ms := start }, ⟨body_accel.x + sh.x, body_accel.y + sh.y, body_accel.z + sh.z⟩)
    else
      ({ sh with start_ms := 0, t := 0 }, body_accel)

/-- One call of the rotational disturbance injector
    (Aircraft::add_twist_forces, lines 903-930): it first refreshes the
    ground behaviour selector from the external parameter and then applies
    the same arm/expire logic as the shove to the rotational acceleration. -/
def add_twist_forces (tw : Disturb) (rot_accel : Vec3) (gnd_behav : ℤ)
    (gb : GroundBehaviour) (now : ℕ) : Disturb × Vec3 × GroundBehaviour :=
  let gb1 := if gnd_behav ≠ -1 then toGroundBehaviour gnd_behav else gb
  if tw.t = 0 then (tw, rot_accel, gb1)
  else
    let start := if tw.start_ms = 0 then now else tw.start_ms
    if u32sub now start < u32cast tw.t then
      ({ tw with start_ms := start },
       ⟨rot_accel.x + tw.x, rot_accel.y + tw.y, rot_accel.z + tw.z⟩, gb1)
    else
      ({ tw with start_ms := 0, t := 0 }, rot_accel, gb1)

/-- Default smoothing state: disabled, all zero, never updated. -/
def baseSmooth : SmoothState :=
  { enabled := false,
    position := Vec3.zero,
    rotation_b2e := Mat3.identity,
    accel_body := Vec3.zero,
    velocity_ef := Vec3.zero,
    gyro := Vec3.zero,
    last_update_us := 0,
    location := ⟨0, 0, 0⟩ }

/-- Reference aircraft state used by the concrete instances below: at rest at
    the origin, level identity orientation, resting specific force, one
    millisecond frame time (1000 Hz loop written as 1200 rate field is
    irrelevant to the dynamics; the frame time field drives the step). -/
def baseAircraft : Aircraft :=
  { home := ⟨0, 0, 0⟩,
    ground_level := 0,
    frame_height := 0,
    dcm := Mat3.identity,
    gyro := Vec3.zero,
    gyro_prev := Vec3.zero,
    ang_accel := Vec3.zero,
    velocity_ef := Vec3.zero,
    position := Vec3.zero,
    accel_body := ⟨0, 0, -GRAVITY_MSS⟩,
    wind_ef := Vec3.zero,
    velocity_air_ef := Vec3.zero,
    velocity_air_bf := Vec3.zero,
    airspeed := 0,
    airspeed_pitot := 0,
    location := ⟨0, 0, 0⟩,
    use_smoothing := false,
    smoothing := baseSmooth,
    ground_behavior := .NONE,
    terrain_diff := 0,
    rate_hz := 1200,
    frame_time_us := 1000,
    target_speedup := 1,
    scaled_frame_time_us := 1000,
    achieved_rate_hz := 1200,
    last_wall_time_us := 0,
    last_ground_contact_ms := 0,
    time_now_us := 0,
    mag_bf := Vec3.zero,
    battery_voltage := 0,
    battery_current := 0,
    num_motors := 1,
    rpm := [0],
    rcin_chan_count := 0,
    rcin := [],
    range := 0,
    scanner_points := [],
    scanner_ranges := [],
    ahrs_orientation := none,
    last_imu_rotation := 0,
    ahrs_rotation := Mat3.identity,
    ahrs_rotation_inv := Mat3.identity,
    custom_roll := none,
    custom_pitch := none,
    custom_yaw := none,
    last_speedup := 1 }

/-- Default snapshot used as the incoming fdm record of the concrete
    fill_fdm instances. -/
def baseFdm : SitlFdm :=
  { timestamp_us := 0,
    home := ⟨1, 2, 3⟩,
    latitude := 0, longitude := 0, altitude := 0, heading := 0,
    speedN := 0, speedE := 0, speedD := 0,
    xAccel := 0, yAccel := 0, zAccel := 0,
    rollRate := 0, pitchRate := 0, yawRate := 0,
    angAccel := Vec3.zero,
    rollDeg := 0, pitchDeg := 0, yawDeg := 0,
    quaternion := ⟨1, 0, 0, 0⟩,
    airspeed := 0,
    battery_voltage := 0, battery_current := 0,
    num_motors := 1, rpm := [0],
    rcin_chan_count := 0, rcin := [],
    range := 0,
    bodyMagField := Vec3.zero,
    scanner_points := [], scanner_ranges := [] }

/-- Airborne state with a pure east-to-west-free unit wind: at rest 100 m
    above the ground with wind vector (1,0,0). -/
def acC1 : Aircraft :=
  { baseAircraft with position := ⟨0, 0, -100⟩, wind_ef := ⟨1, 0, 0⟩ }

/-- Tailsitter in ground contact at rest (earth-frame acceleration zero)
    moving horizontally at one metre per second. -/
def acW3 : Aircraft :=
  { baseAircraft with ground_behavior := .TAILSITTER, velocity_ef := ⟨1, 0, 0⟩ }

/-- Tailsitter in ground contact accelerating upward at 1.2 g: the body
    specific force of 2.2 g gives a post-gravity earth-frame vertical
    acceleration of minus 1.2 g; the initial height offset keeps the
    integrated position exactly on the ground. -/
def acC3 : Aircraft :=
  { baseAircraft with
      ground_behavior := .TAILSITTER,
      velocity_ef := ⟨1, 0, 0⟩,
      accel_body := ⟨0, 0, -(2.2 * GRAVITY_MSS)⟩,
      position := ⟨0, 0, 1.2 * GRAVITY_MSS * 1e-6⟩ }

/-- ForwardOnly ground contact at one metre per second forward speed. -/
def acW8 : Aircraft :=
  { baseAircraft with ground_behavior := .FWD_ONLY, velocity_ef := ⟨1, 0, 0⟩ }

/-- ForwardOnly ground contact, pitched up thirty degrees, moving three
    metres per second horizontally while descending at four metres per
    second: the horizontal ground speed is 3 but the three-dimensional
    speed is exactly 5.  The specific force balances gravity so the
    integrated velocity is unchanged, and the initial height offset keeps
    the integrated position exactly on the ground. -/
def acC8 : Aircraft :=
  { baseAircraft with
      ground_behavior := .FWD_ONLY,
      dcm := Mat3.from_euler 0 (Real.pi / 6) 0,
      accel_body := ⟨GRAVITY_MSS * Real.sin (Real.pi / 6), 0,
                     -(GRAVITY_MSS * Real.cos (Real.pi / 6))⟩,
      velocity_ef := ⟨3, 0, -4⟩,
      position := ⟨0, 0, 0.004⟩ }

/-- State whose smoothing filter has never run, with truth fields distinct
    from the smoothed fields. -/
def acW6 : Aircraft :=
  { baseAircraft with
      position := ⟨4, 5, 6⟩,
      velocity_ef := ⟨7, 8, 9⟩,
      gyro := ⟨10, 11, 12⟩,
      location := ⟨21, 22, 23⟩ }

/-- State whose last smoothing update is 0.2 seconds old while the truth
    and smoothed positions diverge by twenty metres. -/
def acC7 : Aircraft :=
  { baseAircraft with
      time_now_us := 1200000,
      smoothing := { baseSmooth with last_update_us := 1000000, position := ⟨0, 0, 20⟩ } }

/-- State whose last smoothing update is 0.2 seconds old with no positional
    divergence. -/
def acW7 : Aircraft :=
  { baseAircraft with
      time_now_us := 1200000,
      smoothing := { baseSmooth with last_update_us := 1000000 } }

/-- Shove or twist disturbance of magnitude (1,2,3) armed for one hundred
    milliseconds and not yet started. -/
def dW9 : Disturb := ⟨1, 2, 3, 100, 0⟩

/-- State with the smoothing filter enabled and smoothed fields distinct
    from the truth fields, with no smoothing pass pending and no mounting
    rotation configured. -/
def acW10 : Aircraft :=
  { baseAircraft with
      smoothing :=
        { baseSmooth with
            enabled := true,
            accel_body := ⟨31, 32, 33⟩,
            gyro := ⟨34, 35, 36⟩,
            velocity_ef := ⟨37, 38, 39⟩,
            location := ⟨41, 42, 43⟩ } }

theorem Vec3.add_def (v w : Vec3) : v + w = ⟨v.x + w.x, v.y + w.y, v.z + w.z⟩ := rfl

theorem Vec3.sub_def (v w : Vec3) : v - w = ⟨v.x - w.x, v.y - w.y, v.z - w.z⟩ := rfl

theorem radians2000_pos : 0 < radians 2000 := by
  unfold radians
  positivity

theorem constrain_float_of_mem (v lo hi : ℝ) (h1 : lo ≤ v) (h2 : v ≤ hi) :
    constrain_float v lo hi = v := by
  unfold constrain_float
  rw [if_neg (not_lt.2 h1), if_neg (not_lt.2 h2)]

theorem constrain_float_of_hi (v lo hi : ℝ) (hlo : lo ≤ hi) (h : hi < v) :
    constrain_float v lo hi = hi := by
  unfold constrain_float
  rw [if_neg (not_lt.2 (le_of_lt (lt_of_le_of_lt hlo h))), if_pos h]

theorem constrain_float_of_lo (v lo hi : ℝ) (h : v < lo) :
    constrain_float v lo hi = lo := by
  unfold constrain_float
  rw [if_pos h]

theorem constrain_float_mem (v lo hi : ℝ) (h : lo ≤ hi) :
    lo ≤ constrain_float v lo hi ∧ constrain_float v lo hi ≤ hi := by
  unfold constrain_float
  split
  · exact ⟨le_refl lo, h⟩
  · split
    · exact ⟨h, le_refl hi⟩
    · constructor
      · exact le_of_not_lt (by assumption)
      · exact le_of_not_lt (by assumption)

theorem sqrt_eq_of_sq (a b : ℝ) (hb : 0 ≤ b) (h : b * b = a) : Real.sqrt a = b := by
  rw [← h]
  exact Real.sqrt_mul_self hb

theorem Vec3.cross_dot_self (v w : Vec3) :
    (v.cross w).dot (v.cross w) = (v.dot v) * (w.dot w) - (v.dot w) * (v.dot w) := by
  simp only [cross, dot]
  ring

theorem Vec3.smul_one (v : Vec3) : v.smul 1 = v := by
  ext <;> simp [smul]

theorem Mat3.normalize_of_orthonormal (m : Mat3) (hab : m.a.dot m.b = 0)
    (ha : m.a.dot m.a = 1) (hb : m.b.dot m.b = 1) (hc : m.c = m.a.cross m.b) :
    m.normalize = m := by
  unfold normalize
  simp only [hab, mul_zero]
  have hsm : ∀ v : Vec3, v.smul 0 = ⟨0, 0, 0⟩ := by
    intro v
    ext <;> simp [Vec3.smul]
  have hsub : ∀ v : Vec3, v - (⟨0, 0, 0⟩ : Vec3) = v := by
    intro v
    ext <;> simp [Vec3.sub_def]
  rw [hsm, hsm, hsub, hsub]
  have hla : m.a.length = 1 := by
    unfold Vec3.length
    have : m.a.x * m.a.x + m.a.y * m.a.y + m.a.z * m.a.z = 1 := ha
    rw [this, Real.sqrt_one]
  have hlb : m.b.length = 1 := by
    unfold Vec3.length
    have : m.b.x * m.b.x + m.b.y * m.b.y + m.b.z * m.b.z = 1 := hb
    rw [this, Real.sqrt_one]
  have hlc : (m.a.cross m.b).length = 1 := by
    unfold Vec3.length
    have h2 : (m.a.cross m.b).x * (m.a.cross m.b).x + (m.a.cross m.b).y * (m.a.cross m.b).y +
        (m.a.cross m.b).z * (m.a.cross m.b).z = 1 := by
      have h3 := Vec3.cross_dot_self m.a m.b
      rw [ha, hb, hab] at h3
      simpa [Vec3.dot] using h3
    rw [h2, Real.sqrt_one]
  rw [hla, hlb, hlc, ← hc]
  norm_num [Vec3.smul_one]

theorem Mat3.rotate_zero (m : Mat3) : m.rotate Vec3.zero = m := by
  unfold rotate
  ext <;> simp [Vec3.cross, Vec3.zero, Vec3.add_def]

theorem Mat3.identity_normalize : Mat3.identity.normalize = Mat3.identity := by
  apply Mat3.normalize_of_orthonormal <;>
    simp [Mat3.identity, Vec3.dot, Vec3.cross]

theorem gyro1_of_zero (s : Aircraft) (h : s.gyro = Vec3.zero) :
    gyro1 s Vec3.zero = Vec3.zero := by
  have h2 : (0 : ℝ) ≤ radians 2000 := le_of_lt radians2000_pos
  have h3 : -(radians 2000) ≤ (0 : ℝ) := by linarith
  unfold gyro1
  rw [h]
  have hz : (Vec3.zero + Vec3.zero.smul (delta_t s)) = Vec3.zero := by
    ext <;> simp [Vec3.zero, Vec3.smul, Vec3.add_def]
  rw [hz]
  ext <;>
    simpa [Vec3.zero] using constrain_float_of_mem 0 (-(radians 2000)) (radians 2000) h3 h2

theorem dcm1_of_zero (s : Aircraft) (h : s.gyro = Vec3.zero)
    (hn : s.dcm.normalize = s.dcm) : dcm1 s Vec3.zero = s.dcm := by
  unfold dcm1
  rw [gyro1_of_zero s h]
  have hz : Vec3.zero.smul (delta_t s) = Vec3.zero := by
    ext <;> simp [Vec3.zero, Vec3.smul]
  rw [hz, Mat3.rotate_zero, hn]

theorem from_euler_r0 (p y : ℝ) : Mat3.from_euler 0 p y =
    ⟨⟨Real.cos p * Real.cos y, -(Real.sin y), Real.sin p * Real.cos y⟩,
     ⟨Real.cos p * Real.sin y, Real.cos y, Real.sin p * Real.sin y⟩,
     ⟨-(Real.sin p), 0, Real.cos p⟩⟩ := by
  unfold Mat3.from_euler
  ext <;> simp [Real.sin_zero, Real.cos_zero]

theorem normalize_from_euler_r0 (p y : ℝ) :
    (Mat3.from_euler 0 p y).normalize = Mat3.from_euler 0 p y := by
  have hp := Real.sin_sq_add_cos_sq p
  have hy := Real.sin_sq_add_cos_sq y
  apply Mat3.normalize_of_orthonormal
  · rw [from_euler_r0]
    simp only [Vec3.dot]
    linear_combination (Real.cos y * Real.sin y) * hp
  · rw [from_euler_r0]
    simp only [Vec3.dot]
    linear_combination (Real.cos y) ^ 2 * hp + hy
  · rw [from_euler_r0]
    simp only [Vec3.dot]
    linear_combination (Real.sin y) ^ 2 * hp + hy
  · rw [from_euler_r0]
    ext
    · simp only [Vec3.cross]
      linear_combination (Real.sin p) * hy
    · simp only [Vec3.cross]
      ring
    · simp only [Vec3.cross]
      linear_combination (-(Real.cos p)) * hy

theorem from_euler_r0_tmul (p y : ℝ) (v : Vec3) :
    (Mat3.from_euler 0 p y).transposed.mulVec ((Mat3.from_euler 0 p y).mulVec v) = v := by
  have hp := Real.sin_sq_add_cos_sq p
  have hy := Real.sin_sq_add_cos_sq y
  rw [from_euler_r0]
  ext
  · simp only [Mat3.transposed, Mat3.mulVec, Vec3.dot]
    linear_combination (v.x * (Real.cos p) ^ 2 + v.z * Real.sin p * Real.cos p) * hy + v.x * hp
  · simp only [Mat3.transposed, Mat3.mulVec, Vec3.dot]
    linear_combination v.y * hy
  · simp only [Mat3.transposed, Mat3.mulVec, Vec3.dot]
    linear_combination (v.x * Real.sin p * Real.cos p + v.z * (Real.sin p) ^ 2) * hy + v.z * hp

theorem from_euler_r0_transposed_e3 (p y t : ℝ) :
    (Mat3.from_euler 0 p y).transposed.mulVec ⟨0, 0, t⟩ =
      ⟨-(Real.sin p) * t, 0, Real.cos p * t⟩ := by
  rw [from_euler_r0]
  ext <;> simp [Mat3.transposed, Mat3.mulVec, Vec3.dot]

theorem Mat3.mulVec_sub (m : Mat3) (u w : Vec3) :
    m.mulVec (u - w) = m.mulVec u - m.mulVec w := by
  ext <;> simp [mulVec, Vec3.dot, Vec3.sub_def] <;> ring

theorem atan2_zero_pos (x : ℝ) (h : 0 < x) : atan2 0 x = 0 := by
  unfold atan2
  rw [if_pos h]
  simp [Real.arctan_zero]

theorem safe_asin_zero : safe_asin 0 = 0 := by
  unfold safe_asin
  norm_num [Real.arcsin_zero]

theorem to_euler_identity : Mat3.identity.to_euler = (0, 0, 0) := by
  unfold Mat3.to_euler
  simp [Mat3.identity, atan2_zero_pos 1 one_pos, safe_asin_zero]

theorem safe_asin_le (v : ℝ) : safe_asin v ≤ Real.pi / 2 := by
  unfold safe_asin
  split
  · exact le_refl _
  · split
    · have := Real.pi_pos
      linarith
    · exact Real.arcsin_le_pi_div_two v

theorem neg_le_safe_asin (v : ℝ) : -(Real.pi / 2) ≤ safe_asin v := by
  unfold safe_asin
  split
  · have := Real.pi_pos
    linarith
  · split
    · exact le_refl _
    · exact Real.neg_pi_div_two_le_arcsin v

theorem adjust_frame_time_position (t : Aircraft) (r : ℝ) :
    (adjust_frame_time t r).position = t.position := by
  unfold adjust_frame_time
  split <;> rfl

theorem adjust_frame_time_gyro (t : Aircraft) (r : ℝ) :
    (adjust_frame_time t r).gyro = t.gyro := by
  unfold adjust_frame_time
  split <;> rfl

theorem adjust_frame_time_dcm (t : Aircraft) (r : ℝ) :
    (adjust_frame_time t r).dcm = t.dcm := by
  unfold adjust_frame_time
  split <;> rfl

theorem adjust_frame_time_velocity_ef (t : Aircraft) (r : ℝ) :
    (adjust_frame_time t r).velocity_ef = t.velocity_ef := by
  unfold adjust_frame_time
  split <;> rfl

theorem adjust_frame_time_velocity_air_ef (t : Aircraft) (r : ℝ) :
    (adjust_frame_time t r).velocity_air_ef = t.velocity_air_ef := by
  unfold adjust_frame_time
  split <;> rfl

theorem adjust_frame_time_velocity_air_bf (t : Aircraft) (r : ℝ) :
    (adjust_frame_time t r).velocity_air_bf = t.velocity_air_bf := by
  unfold adjust_frame_time
  split <;> rfl

theorem adjust_frame_time_airspeed (t : Aircraft) (r : ℝ) :
    (adjust_frame_time t r).airspeed = t.airspeed := by
  unfold adjust_frame_time
  split <;> rfl

theorem adjust_frame_time_airspeed_pitot (t : Aircraft) (r : ℝ) :
    (adjust_frame_time t r).airspeed_pitot = t.airspeed_pitot := by
  unfold adjust_frame_time
  split <;> rfl

theorem update_dynamics_airspeed_pitot (s : Aircraft) (rot : Vec3) (n : ℕ) (lr : ℝ) :
    (update_dynamics s rot n lr).airspeed_pitot = airspeed_pitot1 s rot := by
  unfold update_dynamics
  rw [adjust_frame_time_airspeed_pitot]
  by_cases hg : on_groundAt s (position1 s rot)
  · rw [if_pos hg]
    cases hgb : s.ground_behavior <;> simp [hgb]
  · rw [if_neg hg]

theorem update_dynamics_airspeed (s : Aircraft) (rot : Vec3) (n : ℕ) (lr : ℝ) :
    (update_dynamics s rot n lr).airspeed = airspeed1 s rot := by
  unfold update_dynamics
  rw [adjust_frame_time_airspeed]
  by_cases hg : on_groundAt s (position1 s rot)
  · rw [if_pos hg]
    cases hgb : s.ground_behavior <;> simp [hgb]
  · rw [if_neg hg]

theorem update_dynamics_velocity_air_ef (s : Aircraft) (rot : Vec3) (n : ℕ) (lr : ℝ) :
    (update_dynamics s rot n lr).velocity_air_ef = velocity_air_ef1 s rot := by
  unfold update_dynamics
  rw [adjust_frame_time_velocity_air_ef]
  by_cases hg : on_groundAt s (position1 s rot)
  · rw [if_pos hg]
    cases hgb : s.ground_behavior <;> simp [hgb]
  · rw [if_neg hg]

theorem update_dynamics_velocity_air_bf (s : Aircraft) (rot : Vec3) (n : ℕ) (lr : ℝ) :
    (update_dynamics s rot n lr).velocity_air_bf = velocity_air_bf1 s rot := by
  unfold update_dynamics
  rw [adjust_frame_time_velocity_air_bf]
  by_cases hg : on_groundAt s (position1 s rot)
  · rw [if_pos hg]
    cases hgb : s.ground_behavior <;> simp [hgb]
  · rw [if_neg hg]

theorem update_dynamics_position_z_on_ground (s : Aircraft) (rot : Vec3) (n : ℕ) (lr : ℝ)
    (hg : on_groundAt s (position1 s rot)) :
    (update_dynamics s rot n lr).position.z =
      -(s.ground_level + s.frame_height - (s.home.alt : ℝ) * 0.01 + s.terrain_diff) := by
  unfold update_dynamics
  rw [adjust_frame_time_position, if_pos hg]
  cases hgb : s.ground_behavior <;> simp [hgb]

theorem update_dynamics_gyro_cases (s : Aircraft) (rot : Vec3) (n : ℕ) (lr : ℝ) :
    (update_dynamics s rot n lr).gyro = gyro1 s rot ∨
    (update_dynamics s rot n lr).gyro = Vec3.zero := by
  unfold update_dynamics
  rw [adjust_frame_time_gyro]
  by_cases hg : on_groundAt s (position1 s rot)
  · rw [if_pos hg]
    cases hgb : s.ground_behavior <;> simp [hgb]
  · rw [if_neg hg]
    left
    rfl

theorem update_dynamics_velocity_ef_off_ground (s : Aircraft) (rot : Vec3) (n : ℕ) (lr : ℝ)
    (hng : ¬ on_groundAt s (position1 s rot)) :
    (update_dynamics s rot n lr).velocity_ef = velocity1 s rot := by
  unfold update_dynamics
  rw [adjust_frame_time_velocity_ef, if_neg hng]

theorem dcm1_of_rest (s : Aircraft) (hgy : s.gyro = Vec3.zero)
    (hdcm : s.dcm = Mat3.identity) : dcm1 s Vec3.zero = Mat3.identity := by
  refine (dcm1_of_zero s hgy ?_).trans hdcm
  rw [hdcm, Mat3.identity_normalize]

theorem accel_earth1_of_rest (s : Aircraft) (hgy : s.gyro = Vec3.zero)
    (hdcm : s.dcm = Mat3.identity) (hab : s.accel_body = ⟨0, 0, -GRAVITY_MSS⟩) :
    accel_earth1 s Vec3.zero = Vec3.zero := by
  have hraw : accel_earth_raw s Vec3.zero = Vec3.zero := by
    unfold accel_earth_raw
    rw [dcm1_of_rest s hgy hdcm, hab]
    ext <;> simp [Mat3.identity, Mat3.mulVec, Vec3.dot, Vec3.add_def, Vec3.zero]
  unfold accel_earth1
  rw [hraw]
  rw [if_neg]
  simp [Vec3.zero]

theorem velocity1_of_rest (s : Aircraft) (hgy : s.gyro = Vec3.zero)
    (hdcm : s.dcm = Mat3.identity) (hab : s.accel_body = ⟨0, 0, -GRAVITY_MSS⟩) :
    velocity1 s Vec3.zero = s.velocity_ef := by
  unfold velocity1
  rw [accel_earth1_of_rest s hgy hdcm hab]
  ext <;> simp [Vec3.smul, Vec3.zero, Vec3.add_def]

theorem position1_of_rest (s : Aircraft) (hgy : s.gyro = Vec3.zero)
    (hdcm : s.dcm = Mat3.identity) (hab : s.accel_body = ⟨0, 0, -GRAVITY_MSS⟩) :
    position1 s Vec3.zero = s.position + s.velocity_ef.smul (delta_t s) := by
  unfold position1
  rw [velocity1_of_rest s hgy hdcm hab]

/-- C1 (amended): after the dynamics integrator advances the state, the
    air-relative velocity equals the freshly integrated earth-frame ground
    velocity PLUS the wind model vector (the wind vector produced by the wind
    model points opposite the motion of the air mass, so the code adds it
    rather than subtracting it), and the reported airspeed equals the
    magnitude of that air-relative velocity. -/
theorem c1_air_relative_velocity (s : Aircraft) (rot : Vec3) (n : ℕ) (lr : ℝ) :
    (update_dynamics s rot n lr).velocity_air_ef = velocity1 s rot + s.wind_ef ∧
    (update_dynamics s rot n lr).airspeed = (velocity1 s rot + s.wind_ef).length := by
  constructor
  · rw [update_dynamics_velocity_air_ef]
    rfl
  · rw [update_dynamics_airspeed]
    rfl

/-- C1 counterexample: at a concrete airborne state at rest in a unit wind,
    the air-relative velocity the dynamics step computes is not the ground
    velocity minus the wind vector, refuting the claim that air-relative
    velocity is computed by subtracting wind. -/
theorem c1_subtract_wind_counterexample :
    (update_dynamics acC1 Vec3.zero 0 1200).velocity_air_ef ≠
      (update_dynamics acC1 Vec3.zero 0 1200).velocity_ef - acC1.wind_ef := by
  have hv1 : velocity1 acC1 Vec3.zero = Vec3.zero := by
    rw [velocity1_of_rest acC1 rfl rfl rfl]
    rfl
  have hp1 : position1 acC1 Vec3.zero = ⟨0, 0, -100⟩ := by
    rw [position1_of_rest acC1 rfl rfl rfl]
    ext <;> simp [acC1, baseAircraft, Vec3.zero, Vec3.smul, Vec3.add_def]
  have hng : ¬ on_groundAt acC1 (position1 acC1 Vec3.zero) := by
    rw [hp1]
    unfold on_groundAt haglAt
    simp [acC1, baseAircraft]
    norm_num
  intro h
  rw [update_dynamics_velocity_air_ef,
      update_dynamics_velocity_ef_off_ground acC1 Vec3.zero 0 1200 hng] at h
  unfold velocity_air_ef1 at h
  rw [hv1] at h
  have hx := congrArg Vec3.x h
  simp [acC1, baseAircraft, Vec3.zero, Vec3.add_def, Vec3.sub_def] at hx
  norm_num at hx

/-- C2: on every tick whose integrated position is in ground contact the
    dynamics update sets the vertical position exactly to minus (ground
    level plus frame height minus home altitude plus terrain correction),
    regardless of the incoming vertical velocity; and contact is detected
    exactly when the height above ground level, equal to the negated
    down-position plus home altitude minus ground level minus frame height
    minus terrain correction, is at most one millimetre. -/
theorem c2_ground_clamp (s : Aircraft) (rot : Vec3) (n : ℕ) (lr : ℝ)
    (hg : on_groundAt s (position1 s rot)) :
    (update_dynamics s rot n lr).position.z =
      -(s.ground_level + s.frame_height - (s.home.alt : ℝ) * 0.01 + s.terrain_diff) ∧
    ∀ pos : Vec3, (on_groundAt s pos ↔
      (-pos.z) + (s.home.alt : ℝ) * 0.01 - s.ground_level - s.frame_height - s.terrain_diff
        ≤ 0.001) := by
  exact ⟨update_dynamics_position_z_on_ground s rot n lr hg, fun pos => Iff.rfl⟩

/-- C2 witness: a vehicle resting on the ground at the origin is in contact
    and its vertical position is clamped to the ground expression. -/
theorem c2_ground_clamp_witness :
    on_groundAt baseAircraft (position1 baseAircraft Vec3.zero) ∧
    (update_dynamics baseAircraft Vec3.zero 0 1200).position.z =
      -(baseAircraft.ground_level + baseAircraft.frame_height -
        (baseAircraft.home.alt : ℝ) * 0.01 + baseAircraft.terrain_diff) := by
  have hg : on_groundAt baseAircraft (position1 baseAircraft Vec3.zero) := by
    rw [position1_of_rest baseAircraft rfl rfl rfl]
    unfold on_groundAt haglAt
    simp [baseAircraft, Vec3.zero, Vec3.smul, Vec3.add_def]
    norm_num
  exact ⟨hg, (c2_ground_clamp baseAircraft Vec3.zero 0 1200 hg).1⟩

/-- C4: after the integrator adds the rotational acceleration times the tick
    duration to the body angular rate, each axis is the unclamped sum
    constrained to the interval from minus to plus 2000 degrees per second;
    on any axis where the unclamped sum exceeds a bound, the post-integration
    rate equals that bound exactly; and the angular rate stored by the full
    dynamics step never exceeds the bound in magnitude on any axis. -/
theorem c4_angular_rate_clamp (s : Aircraft) (rot : Vec3) (n : ℕ) (lr : ℝ) :
    gyro1 s rot =
      ⟨constrain_float (s.gyro.x + rot.x * delta_t s) (-(radians 2000)) (radians 2000),
       constrain_float (s.gyro.y + rot.y * delta_t s) (-(radians 2000)) (radians 2000),
       constrain_float (s.gyro.z + rot.z * delta_t s) (-(radians 2000)) (radians 2000)⟩ ∧
    (radians 2000 < s.gyro.x + rot.x * delta_t s → (gyro1 s rot).x = radians 2000) ∧
    (s.gyro.x + rot.x * delta_t s < -(radians 2000) → (gyro1 s rot).x = -(radians 2000)) ∧
    (radians 2000 < s.gyro.y + rot.y * delta_t s → (gyro1 s rot).y = radians 2000) ∧
    (s.gyro.y + rot.y * delta_t s < -(radians 2000) → (gyro1 s rot).y = -(radians 2000)) ∧
    (radians 2000 < s.gyro.z + rot.z * delta_t s → (gyro1 s rot).z = radians 2000) ∧
    (s.gyro.z + rot.z * delta_t s < -(radians 2000) → (gyro1 s rot).z = -(radians 2000)) ∧
    |(update_dynamics s rot n lr).gyro.x| ≤ radians 2000 ∧
    |(update_dynamics s rot n lr).gyro.y| ≤ radians 2000 ∧
    |(update_dynamics s rot n lr).gyro.z| ≤ radians 2000 := by
  have hlh : -(radians 2000) ≤ radians 2000 := by
    have := radians2000_pos
    linarith
  have habs : ∀ v : ℝ, |constrain_float v (-(radians 2000)) (radians 2000)| ≤ radians 2000 := by
    intro v
    have hm := constrain_float_mem v (-(radians 2000)) (radians 2000) hlh
    exact abs_le.2 ⟨hm.1, hm.2⟩
  have hup : ∀ w : ℝ, |(0 : ℝ)| ≤ radians 2000 := by
    intro w
    simp [le_of_lt radians2000_pos]
  refine ⟨rfl, fun h => constrain_float_of_hi _ _ _ hlh h,
          fun h => constrain_float_of_lo _ _ _ h,
          fun h => constrain_float_of_hi _ _ _ hlh h,
          fun h => constrain_float_of_lo _ _ _ h,
          fun h => constrain_float_of_hi _ _ _ hlh h,
          fun h => constrain_float_of_lo _ _ _ h, ?_, ?_, ?_⟩ <;>
    rcases update_dynamics_gyro_cases s rot n lr with hcase | hcase <;> rw [hcase]
  · exact habs _
  · simpa [Vec3.zero] using hup 0
  · exact habs _
  · simpa [Vec3.zero] using hup 0
  · exact habs _
  · simpa [Vec3.zero] using hup 0

/-- C4 witness: a rotational acceleration of a billion degrees-equivalent per
    second squared overflows the clamp in one millisecond tick and the
    post-integration x rate equals exactly the positive bound. -/
theorem c4_angular_rate_clamp_witness :
    radians 2000 < baseAircraft.gyro.x + (⟨1e9, 0, 0⟩ : Vec3).x * delta_t baseAircraft ∧
    (gyro1 baseAircraft ⟨1e9, 0, 0⟩).x = radians 2000 := by
  have h : radians 2000 < baseAircraft.gyro.x + (⟨1e9, 0, 0⟩ : Vec3).x * delta_t baseAircraft := by
    have hpi := Real.pi_lt_d2
    simp only [baseAircraft, Vec3.zero, delta_t, radians]
    push_cast
    nlinarith [Real.pi_pos]
  exact ⟨h, (c4_angular_rate_clamp baseAircraft ⟨1e9, 0, 0⟩ 0 1200).2.1 h⟩

/-- C5: the reported forward-pitot airspeed equals the body-x component of
    the air-relative velocity clamped to the interval from 0 to 120 metres
    per second, and is therefore never negative and never exceeds 120. -/
theorem c5_pitot_bound (s : Aircraft) (rot : Vec3) (n : ℕ) (lr : ℝ) :
    (update_dynamics s rot n lr).airspeed_pitot =
      constrain_float (velocity_air_bf1 s rot).x 0 120 ∧
    0 ≤ (update_dynamics s rot n lr).airspeed_pitot ∧
    (update_dynamics s rot n lr).airspeed_pitot ≤ 120 := by
  have hx : (velocity_air_bf1 s rot).dot ⟨1, 0, 0⟩ = (velocity_air_bf1 s rot).x := by
    simp [Vec3.dot]
  have h1 : (update_dynamics s rot n lr).airspeed_pitot =
      constrain_float (velocity_air_bf1 s rot).x 0 120 := by
    rw [update_dynamics_airspeed_pitot]
    unfold airspeed_pitot1
    rw [hx]
  refine ⟨h1, ?_, ?_⟩ <;> rw [h1]
  · exact (constrain_float_mem _ 0 120 (by norm_num)).1
  · exact (constrain_float_mem _ 0 120 (by norm_num)).2

theorem tailsitter_branch (s : Aircraft) (rot : Vec3) (n : ℕ) (lr : ℝ)
    (hg : on_groundAt s (position1 s rot)) (hb : s.ground_behavior = .TAILSITTER) :
    (update_dynamics s rot n lr).gyro = Vec3.zero ∧
    (update_dynamics s rot n lr).dcm =
      Mat3.from_euler 0 (radians 90) ((dcm1 s rot).to_euler).2.2 ∧
    (-1.1 * GRAVITY_MSS < (accel_earth1 s rot).z →
      (update_dynamics s rot n lr).velocity_ef = Vec3.zero) ∧
    (¬ -1.1 * GRAVITY_MSS < (accel_earth1 s rot).z →
      (update_dynamics s rot n lr).velocity_ef = velocity1 s rot) := by
  refine ⟨?_, ?_, ?_, ?_⟩
  · unfold update_dynamics
    rw [adjust_frame_time_gyro, if_pos hg]
    simp [hb]
  · unfold update_dynamics
    rw [adjust_frame_time_dcm, if_pos hg]
    simp [hb]
  · intro h
    unfold update_dynamics
    rw [adjust_frame_time_velocity_ef, if_pos hg]
    simp only [hb]
    simp only [Vec3.zero]
    rw [if_pos h]
  · intro h
    unfold update_dynamics
    rw [adjust_frame_time_velocity_ef, if_pos hg]
    simp only [hb]
    rw [if_neg h]

/-- C3 (amended): on every tick in ground contact with Tailsitter behaviour,
    pitch is forced to plus 90 degrees and the angular rate is zeroed; the
    velocity vector is zeroed exactly when the clamped vertical earth-frame
    acceleration is greater than minus 1.1 times gravity, and left unchanged
    otherwise — so at a vertical acceleration of minus 1.0 g the velocity IS
    zeroed, while at minus 1.2 g (a strong upward, takeoff-style
    acceleration) it is NOT zeroed. -/
theorem c3_tailsitter_ground_behavior (s : Aircraft) (rot : Vec3) (n : ℕ) (lr : ℝ)
    (hg : on_groundAt s (position1 s rot)) (hb : s.ground_behavior = .TAILSITTER) :
    (update_dynamics s rot n lr).gyro = Vec3.zero ∧
    (update_dynamics s rot n lr).dcm =
      Mat3.from_euler 0 (radians 90) ((dcm1 s rot).to_euler).2.2 ∧
    (-1.1 * GRAVITY_MSS < (accel_earth1 s rot).z →
      (update_dynamics s rot n lr).velocity_ef = Vec3.zero) ∧
    (¬ -1.1 * GRAVITY_MSS < (accel_earth1 s rot).z →
      (update_dynamics s rot n lr).velocity_ef = velocity1 s rot) :=
  tailsitter_branch s rot n lr hg hb

/-- C3 witness: a tailsitter resting in contact with vertical acceleration
    zero (above the minus 1.1 g threshold) has its velocity zeroed, its rate
    zeroed and its pitch forced to 90 degrees. -/
theorem c3_tailsitter_ground_behavior_witness :
    on_groundAt acW3 (position1 acW3 Vec3.zero) ∧
    acW3.ground_behavior = .TAILSITTER ∧
    -1.1 * GRAVITY_MSS < (accel_earth1 acW3 Vec3.zero).z ∧
    ((update_dynamics acW3 Vec3.zero 0 1200).velocity_ef = Vec3.zero ∧
     (update_dynamics acW3 Vec3.zero 0 1200).gyro = Vec3.zero) := by
  have hg : on_groundAt acW3 (position1 acW3 Vec3.zero) := by
    rw [position1_of_rest acW3 rfl rfl rfl]
    unfold on_groundAt haglAt
    simp [acW3, baseAircraft, Vec3.smul, Vec3.add_def, Vec3.zero]
    norm_num
  have hz : -1.1 * GRAVITY_MSS < (accel_earth1 acW3 Vec3.zero).z := by
    rw [accel_earth1_of_rest acW3 rfl rfl rfl]
    simp [Vec3.zero]
    norm_num [GRAVITY_MSS]
  have hmain := c3_tailsitter_ground_behavior acW3 Vec3.zero 0 1200 hg rfl
  exact ⟨hg, rfl, hz, hmain.2.2.1 hz, hmain.1⟩

/-- C3 counterexample: a tailsitter in ground contact whose clamped vertical
    earth-frame acceleration equals minus 1.2 g keeps its nonzero velocity,
    refuting the claim that at minus 1.2 g equivalent the velocity is
    zeroed. -/
theorem c3_tailsitter_counterexample :
    on_groundAt acC3 (position1 acC3 Vec3.zero) ∧
    acC3.ground_behavior = .TAILSITTER ∧
    (accel_earth1 acC3 Vec3.zero).z = -1.2 * GRAVITY_MSS ∧
    (update_dynamics acC3 Vec3.zero 0 1200).velocity_ef ≠ Vec3.zero := by
  have hraw : accel_earth_raw acC3 Vec3.zero = ⟨0, 0, -1.2 * GRAVITY_MSS⟩ := by
    unfold accel_earth_raw
    rw [dcm1_of_rest acC3 rfl rfl]
    ext <;> simp [acC3, baseAircraft, Mat3.identity, Mat3.mulVec, Vec3.dot, Vec3.add_def] <;>
      ring
  have hae : accel_earth1 acC3 Vec3.zero = ⟨0, 0, -1.2 * GRAVITY_MSS⟩ := by
    unfold accel_earth1
    rw [hraw, if_neg]
    intro hcon
    have := hcon.2
    norm_num [GRAVITY_MSS] at this
  have hv1 : velocity1 acC3 Vec3.zero = ⟨1, 0, -1.2 * GRAVITY_MSS * 1e-3⟩ := by
    unfold velocity1
    rw [hae]
    ext <;> simp only [acC3, baseAircraft, delta_t, Vec3.smul, Vec3.add_def] <;>
      push_cast <;> ring
  have hp1 : position1 acC3 Vec3.zero = ⟨1e-3, 0, 0⟩ := by
    unfold position1
    rw [hv1]
    ext <;> simp only [acC3, baseAircraft, delta_t, Vec3.smul, Vec3.add_def] <;>
      push_cast <;> ring
  have hg : on_groundAt acC3 (position1 acC3 Vec3.zero) := by
    rw [hp1]
    unfold on_groundAt haglAt
    simp [acC3, baseAircraft]
    norm_num
  have hnz : ¬ -1.1 * GRAVITY_MSS < (accel_earth1 acC3 Vec3.zero).z := by
    rw [hae]
    simp only
    norm_num [GRAVITY_MSS]
  have hvel := (tailsitter_branch acC3 Vec3.zero 0 1200 hg rfl).2.2.2 hnz
  refine ⟨hg, rfl, by rw [hae], ?_⟩
  rw [hvel, hv1]
  intro h
  have hx := congrArg Vec3.x h
  simp [Vec3.zero] at hx

theorem smooth_sensors_reset (s : Aircraft)
    (h : s.smoothing.last_update_us = 0 ∨ 10 < (s.position - s.smoothing.position).length) :
    (smooth_sensors s).smoothing.position = s.position ∧
    (smooth_sensors s).smoothing.rotation_b2e = s.dcm ∧
    (smooth_sensors s).smoothing.accel_body = s.accel_body ∧
    (smooth_sensors s).smoothing.velocity_ef = s.velocity_ef ∧
    (smooth_sensors s).smoothing.gyro = s.gyro ∧
    (smooth_sensors s).smoothing.location = s.location := by
  unfold smooth_sensors
  rw [if_pos h]
  exact ⟨rfl, rfl, rfl, rfl, rfl, rfl⟩

/-- C6: whenever the smoothing filter runs with no previous update (zero last
    update stamp) or with more than ten metres of positional divergence
    between truth and smoothed position, the smoothed position, orientation,
    body acceleration, velocity, gyro and location are set exactly to the
    truth values, with no filtering applied. -/
theorem c6_smoothing_reset (s : Aircraft)
    (h : s.smoothing.last_update_us = 0 ∨ 10 < (s.position - s.smoothing.position).length) :
    (smooth_sensors s).smoothing.position = s.position ∧
    (smooth_sensors s).smoothing.rotation_b2e = s.dcm ∧
    (smooth_sensors s).smoothing.accel_body = s.accel_body ∧
    (smooth_sensors s).smoothing.velocity_ef = s.velocity_ef ∧
    (smooth_sensors s).smoothing.gyro = s.gyro ∧
    (smooth_sensors s).smoothing.location = s.location :=
  smooth_sensors_reset s h

/-- C6 witness: a state whose smoothing filter has never run is reset to the
    truth state on its first update. -/
theorem c6_smoothing_reset_witness :
    acW6.smoothing.last_update_us = 0 ∧
    ((smooth_sensors acW6).smoothing.position = acW6.position ∧
     (smooth_sensors acW6).smoothing.rotation_b2e = acW6.dcm ∧
     (smooth_sensors acW6).smoothing.accel_body = acW6.accel_body ∧
     (smooth_sensors acW6).smoothing.velocity_ef = acW6.velocity_ef ∧
     (smooth_sensors acW6).smoothing.gyro = acW6.gyro ∧
     (smooth_sensors acW6).smoothing.location = acW6.location) :=
  ⟨rfl, c6_smoothing_reset acW6 (Or.inl rfl)⟩

/-- C7 (amended): a smoothing update on which no reset fires (a previous
    update exists and the positional divergence is within ten metres) and
    whose elapsed time is negative or greater than a tenth of a second is
    skipped entirely, leaving the whole state unchanged; the elapsed time is
    an unsigned difference, so it is never negative, and an update with an
    elapsed time of exactly zero is NOT skipped. -/
theorem c7_smoothing_skip (s : Aircraft)
    (h1 : s.smoothing.last_update_us ≠ 0)
    (h2 : ¬ 10 < (s.position - s.smoothing.position).length)
    (h3 : smooth_delta_time s < 0 ∨ 0.1 < smooth_delta_time s) :
    smooth_sensors s = s := by
  unfold smooth_sensors
  rw [if_neg (not_or.mpr ⟨h1, h2⟩), if_pos h3]

/-- C7 witness: a state 0.2 seconds after its previous smoothing update with
    no divergence is left exactly unchanged by the smoothing filter. -/
theorem c7_smoothing_skip_witness :
    acW7.smoothing.last_update_us ≠ 0 ∧
    ¬ 10 < (acW7.position - acW7.smoothing.position).length ∧
    0.1 < smooth_delta_time acW7 ∧
    smooth_sensors acW7 = acW7 := by
  have h1 : acW7.smoothing.last_update_us ≠ 0 := by
    simp [acW7, baseSmooth]
  have h2 : ¬ 10 < (acW7.position - acW7.smoothing.position).length := by
    have hz : (acW7.position - acW7.smoothing.position) = ⟨0, 0, 0⟩ := by
      ext <;> simp [acW7, baseAircraft, baseSmooth, Vec3.sub_def, Vec3.zero]
    rw [hz]
    unfold Vec3.length
    norm_num
  have h3 : 0.1 < smooth_delta_time acW7 := by
    unfold smooth_delta_time u64sub
    norm_num [acW7, baseSmooth]
  exact ⟨h1, h2, h3, c7_smoothing_skip acW7 h1 h2 (Or.inr h3)⟩

/-- C7 counterexample: a smoothing update whose elapsed time is 0.2 seconds,
    greater than the 0.1 second bound, is nevertheless not skipped: because
    the positions diverge by twenty metres the reset branch runs first and
    rewrites the smoothed state, refuting the claim that every update with
    elapsed time above 0.1 seconds leaves the smoothed state unchanged. -/
theorem c7_smoothing_skip_counterexample :
    0.1 < smooth_delta_time acC7 ∧
    (smooth_sensors acC7).smoothing.position ≠ acC7.smoothing.position := by
  have hd : 0.1 < smooth_delta_time acC7 := by
    unfold smooth_delta_time u64sub
    norm_num [acC7, baseSmooth]
  have hdiff : (acC7.position - acC7.smoothing.position) = ⟨0, 0, -20⟩ := by
    ext <;> simp [acC7, baseAircraft, baseSmooth, Vec3.sub_def, Vec3.zero]
  have hlen : 10 < (acC7.position - acC7.smoothing.position).length := by
    rw [hdiff]
    unfold Vec3.length
    have h400 : (0 : ℝ) * 0 + 0 * 0 + -20 * -20 = 400 := by norm_num
    rw [h400, sqrt_eq_of_sq 400 20 (by norm_num) (by norm_num)]
    norm_num
  have hreset := smooth_sensors_reset acC7 (Or.inr hlen)
  refine ⟨hd, ?_⟩
  rw [hreset.1]
  intro h
  have hz := congrArg Vec3.z h
  simp [acC7, baseAircraft, baseSmooth, Vec3.zero] at hz

/-- C9: for each disturbance instance (linear shove and rotational twist):
    armed with zero duration it never modifies the accumulated
    accelerations; armed with a nonzero duration it stamps the wall-clock
    start on first use and adds its constant magnitude vector on every call
    whose elapsed wall-clock time is less than the duration (in the
    millisecond resolution of the wall clock); once the elapsed time reaches
    the duration it self-disarms by zeroing both the duration and the start
    timestamp while adding nothing, so that by the zero-duration case no
    later call ever applies it again. -/
theorem c9_disturbance_arm_expire (sh tw : Disturb) (a r : Vec3) (gnd : ℤ)
    (gb : GroundBehaviour) (now : ℕ) :
    (sh.t = 0 → add_shove_forces sh a now = (sh, a)) ∧
    (tw.t = 0 → (add_twist_forces tw r gnd gb now).1 = tw ∧
                (add_twist_forces tw r gnd gb now).2.1 = r) ∧
    (sh.t ≠ 0 →
      (u32sub now (if sh.start_ms = 0 then now else sh.start_ms) < u32cast sh.t →
        add_shove_forces sh a now =
          ({ sh with start_ms := if sh.start_ms = 0 then now else sh.start_ms },
           ⟨a.x + sh.x, a.y + sh.y, a.z + sh.z⟩)) ∧
      (¬ u32sub now (if sh.start_ms = 0 then now else sh.start_ms) < u32cast sh.t →
        add_shove_forces sh a now = ({ sh with start_ms := 0, t := 0 }, a))) ∧
    (tw.t ≠ 0 →
      (u32sub now (if tw.start_ms = 0 then now else tw.start_ms) < u32cast tw.t →
        (add_twist_forces tw r gnd gb now).1 =
          { tw with start_ms := if tw.start_ms = 0 then now else tw.start_ms } ∧
        (add_twist_forces tw r gnd gb now).2.1 =
          ⟨r.x + tw.x, r.y + tw.y, r.z + tw.z⟩) ∧
      (¬ u32sub now (if tw.start_ms = 0 then now else tw.start_ms) < u32cast tw.t →
        (add_twist_forces tw r gnd gb now).1 = { tw with start_ms := 0, t := 0 } ∧
        (add_twist_forces tw r gnd gb now).2.1 = r)) := by
  refine ⟨?_, ?_, ?_, ?_⟩
  · intro h
    unfold add_shove_forces
    rw [if_pos h]
  · intro h
    unfold add_twist_forces
    rw [if_pos h]
    exact ⟨rfl, rfl⟩
  · intro h
    constructor
    · intro hc
      unfold add_shove_forces
      rw [if_neg h, if_pos hc]
    · intro hc
      unfold add_shove_forces
      rw [if_neg h, if_neg hc]
  · intro h
    constructor
    · intro hc
      unfold add_twist_forces
      rw [if_neg h, if_pos hc]
      exact ⟨rfl, rfl⟩
    · intro hc
      unfold add_twist_forces
      rw [if_neg h, if_neg hc]
      exact ⟨rfl, rfl⟩

/-- C9 witness: a disturbance of magnitude (1,2,3) armed for one hundred
    milliseconds applies its vector on the arming call, for both the shove
    and the twist instance. -/
theorem c9_disturbance_arm_expire_witness :
    dW9.t ≠ 0 ∧
    u32sub 50 (if dW9.start_ms = 0 then 50 else dW9.start_ms) < u32cast dW9.t ∧
    add_shove_forces dW9 Vec3.zero 50 =
      ({ dW9 with start_ms := if dW9.start_ms = 0 then 50 else dW9.start_ms },
       ⟨Vec3.zero.x + dW9.x, Vec3.zero.y + dW9.y, Vec3.zero.z + dW9.z⟩) ∧
    (add_twist_forces dW9 Vec3.zero (-1) .NONE 50).2.1 =
      ⟨Vec3.zero.x + dW9.x, Vec3.zero.y + dW9.y, Vec3.zero.z + dW9.z⟩ := by
  have ht : dW9.t ≠ 0 := by norm_num [dW9]
  have hc : u32sub 50 (if dW9.start_ms = 0 then 50 else dW9.start_ms) < u32cast dW9.t := by
    norm_num [dW9, u32sub, u32cast, f2i]
  have hmain := c9_disturbance_arm_expire dW9 dW9 Vec3.zero Vec3.zero (-1) .NONE 50
  exact ⟨ht, hc, (hmain.2.2.1 ht).1 hc, ((hmain.2.2.2 ht).1 hc).2⟩

theorem refresh_ahrs_rotation_keeps {s1 : Aircraft} {i : ℤ} {fr : ℤ → Mat3} {s2 : Aircraft}
    (h : refresh_ahrs_rotation s1 i fr = some s2) :
    s2.dcm = s1.dcm ∧ s2.smoothing = s1.smoothing := by
  unfold refresh_ahrs_rotation at h
  split at h
  · split at h
    · split at h
      · injection h with h2
        rw [← h2]
        exact ⟨rfl, rfl⟩
      · exact absurd h (by simp)
    · injection h with h2
      rw [← h2]
      exact ⟨rfl, rfl⟩
  · injection h with h2
    rw [← h2]
    exact ⟨rfl, rfl⟩

theorem speedup_tail_eq {s3 : Aircraft} {fdm3 : SitlFdm} {sp : ℝ} {w : ℕ} {s2 : Aircraft}
    {f : SitlFdm}
    (h : (if s3.last_speedup ≠ sp ∧ 0 < sp then
            some ({ setup_frame_time s3 s3.rate_hz sp w with last_speedup := sp }, fdm3)
          else some (s3, fdm3)) = some (s2, f)) : f = fdm3 := by
  split at h <;>
    · simp only [Option.some.injEq, Prod.mk.injEq] at h
      exact h.2.symm

theorem fdm_smoothed_fields (s1 : Aircraft) (f : SitlFdm) (hen : s1.smoothing.enabled = true) :
    (fdm_smoothed s1 f).xAccel = s1.smoothing.accel_body.x ∧
    (fdm_smoothed s1 f).yAccel = s1.smoothing.accel_body.y ∧
    (fdm_smoothed s1 f).zAccel = s1.smoothing.accel_body.z ∧
    (fdm_smoothed s1 f).rollRate = degrees s1.smoothing.gyro.x ∧
    (fdm_smoothed s1 f).pitchRate = degrees s1.smoothing.gyro.y ∧
    (fdm_smoothed s1 f).yawRate = degrees s1.smoothing.gyro.z ∧
    (fdm_smoothed s1 f).speedN = s1.smoothing.velocity_ef.x ∧
    (fdm_smoothed s1 f).speedE = s1.smoothing.velocity_ef.y ∧
    (fdm_smoothed s1 f).speedD = s1.smoothing.velocity_ef.z ∧
    (fdm_smoothed s1 f).latitude = (s1.smoothing.location.lat : ℝ) * 1e-7 ∧
    (fdm_smoothed s1 f).longitude = (s1.smoothing.location.lng : ℝ) * 1e-7 ∧
    (fdm_smoothed s1 f).altitude = (s1.smoothing.location.alt : ℝ) * 1e-2 ∧
    (fdm_smoothed s1 f).rollDeg = f.rollDeg ∧
    (fdm_smoothed s1 f).pitchDeg = f.pitchDeg ∧
    (fdm_smoothed s1 f).yawDeg = f.yawDeg ∧
    (fdm_smoothed s1 f).quaternion = f.quaternion := by
  unfold fdm_smoothed
  rw [if_pos hen]
  exact ⟨rfl, rfl, rfl, rfl, rfl, rfl, rfl, rfl, rfl, rfl, rfl, rfl, rfl, rfl, rfl, rfl⟩

theorem fdm_truth_attitude (s1 : Aircraft) (fdm0 : SitlFdm) :
    (fdm_truth s1 fdm0).rollDeg = degrees (s1.dcm.to_euler).1 ∧
    (fdm_truth s1 fdm0).pitchDeg = degrees (s1.dcm.to_euler).2.1 ∧
    (fdm_truth s1 fdm0).yawDeg = degrees (s1.dcm.to_euler).2.2 ∧
    (fdm_truth s1 fdm0).quaternion = Quat.from_rotation_matrix s1.dcm :=
  ⟨rfl, rfl, rfl, rfl⟩

theorem fdm_attitude_fields (s2 : Aircraft) (f : SitlFdm) :
    (fdm_attitude s2 f).xAccel = f.xAccel ∧
    (fdm_attitude s2 f).yAccel = f.yAccel ∧
    (fdm_attitude s2 f).zAccel = f.zAccel ∧
    (fdm_attitude s2 f).rollRate = f.rollRate ∧
    (fdm_attitude s2 f).pitchRate = f.pitchRate ∧
    (fdm_attitude s2 f).yawRate = f.yawRate ∧
    (fdm_attitude s2 f).speedN = f.speedN ∧
    (fdm_attitude s2 f).speedE = f.speedE ∧
    (fdm_attitude s2 f).speedD = f.speedD ∧
    (fdm_attitude s2 f).latitude = f.latitude ∧
    (fdm_attitude s2 f).longitude = f.longitude ∧
    (fdm_attitude s2 f).altitude = f.altitude ∧
    (fdm_attitude s2 f).rollDeg =
      degrees ((s2.dcm.mul s2.ahrs_rotation_inv).to_euler).1 ∧
    (fdm_attitude s2 f).pitchDeg =
      degrees ((s2.dcm.mul s2.ahrs_rotation_inv).to_euler).2.1 ∧
    (fdm_attitude s2 f).yawDeg =
      degrees ((s2.dcm.mul s2.ahrs_rotation_inv).to_euler).2.2 ∧
    (fdm_attitude s2 f).quaternion =
      Quat.from_rotation_matrix (s2.dcm.mul s2.ahrs_rotation_inv) :=
  ⟨rfl, rfl, rfl, rfl, rfl, rfl, rfl, rfl, rfl, rfl, rfl, rfl, rfl, rfl, rfl, rfl⟩

theorem fill_fdm_f_cases (s : Aircraft) (fdm0 : SitlFdm) (sp : ℝ) (fr : ℤ → Mat3) (w : ℕ)
    (s2 : Aircraft) (f : SitlFdm) (s1 : Aircraft)
    (hs1 : s1 = if s.use_smoothing then smooth_sensors s else s)
    (hres : fill_fdm s fdm0 sp fr w = some (s2, f)) :
    (f = fdm_smoothed s1 (fdm_truth s1 fdm0) ∧
      (s1.ahrs_orientation = none ∨ s1.ahrs_orientation = some ROTATION_NONE)) ∨
    (∃ rotv : ℤ, ∃ s2' : Aircraft, s1.ahrs_orientation = some rotv ∧ rotv ≠ ROTATION_NONE ∧
      refresh_ahrs_rotation s1 rotv fr = some s2' ∧ s2'.dcm = s1.dcm ∧
      f = fdm_attitude s2' (fdm_smoothed s1 (fdm_truth s1 fdm0))) := by
  simp only [fill_fdm] at hres
  rw [← hs1] at hres
  rcases hA : s1.ahrs_orientation with _ | rotv <;> rw [hA] at hres <;> dsimp only at hres
  · left
    exact ⟨(speedup_tail_eq hres), Or.inl rfl⟩
  · rcases hR : refresh_ahrs_rotation s1 rotv fr with _ | s2' <;> rw [hR] at hres <;>
      dsimp only at hres
    · exact absurd hres (by simp)
    · by_cases hrot : rotv = ROTATION_NONE
      · rw [if_neg (by simp [hrot])] at hres
        dsimp only at hres
        left
        exact ⟨speedup_tail_eq hres, Or.inr (by rw [hrot])⟩
      · rw [if_pos (by simpa using hrot)] at hres
        dsimp only at hres
        right
        exact ⟨rotv, s2', rfl, hrot, hR, (refresh_ahrs_rotation_keeps hR).1,
               speedup_tail_eq hres⟩

/-- C10: whenever the smoothing state is enabled, the assembled snapshot
    takes body accelerations, body rates, earth-frame velocity components
    and geodetic position from the smoothed state, while the reported
    attitude (roll, pitch, yaw and quaternion) is still derived from the
    truth orientation matrix — directly when no mounting rotation is
    configured, or composed with the cached inverse mounting rotation
    otherwise — and never from the smoothed orientation. -/
theorem c10_snapshot_sources (s : Aircraft) (fdm0 : SitlFdm) (sp : ℝ) (fr : ℤ → Mat3)
    (w : ℕ) (s1 s2 : Aircraft) (f : SitlFdm)
    (hs1 : s1 = if s.use_smoothing then smooth_sensors s else s)
    (hres : fill_fdm s fdm0 sp fr w = some (s2, f))
    (hen : s1.smoothing.enabled = true) :
    (f.xAccel = s1.smoothing.accel_body.x ∧
     f.yAccel = s1.smoothing.accel_body.y ∧
     f.zAccel = s1.smoothing.accel_body.z ∧
     f.rollRate = degrees s1.smoothing.gyro.x ∧
     f.pitchRate = degrees s1.smoothing.gyro.y ∧
     f.yawRate = degrees s1.smoothing.gyro.z ∧
     f.speedN = s1.smoothing.velocity_ef.x ∧
     f.speedE = s1.smoothing.velocity_ef.y ∧
     f.speedD = s1.smoothing.velocity_ef.z ∧
     f.latitude = (s1.smoothing.location.lat : ℝ) * 1e-7 ∧
     f.longitude = (s1.smoothing.location.lng : ℝ) * 1e-7 ∧
     f.altitude = (s1.smoothing.location.alt : ℝ) * 1e-2) ∧
    ((s1.ahrs_orientation = none ∨ s1.ahrs_orientation = some ROTATION_NONE) →
     (f.rollDeg = degrees (s1.dcm.to_euler).1 ∧
      f.pitchDeg = degrees (s1.dcm.to_euler).2.1 ∧
      f.yawDeg = degrees (s1.dcm.to_euler).2.2 ∧
      f.quaternion = Quat.from_rotation_matrix s1.dcm)) ∧
    (∀ rotv : ℤ, s1.ahrs_orientation = some rotv → rotv ≠ ROTATION_NONE →
     ∃ minv : Mat3,
       f.rollDeg = degrees ((s1.dcm.mul minv).to_euler).1 ∧
       f.pitchDeg = degrees ((s1.dcm.mul minv).to_euler).2.1 ∧
       f.yawDeg = degrees ((s1.dcm.mul minv).to_euler).2.2 ∧
       f.quaternion = Quat.from_rotation_matrix (s1.dcm.mul minv)) := by
  obtain ⟨g1, g2, g3, g4, g5, g6, g7, g8, g9, g10, g11, g12, g13, g14, g15, g16⟩ :=
    fdm_smoothed_fields s1 (fdm_truth s1 fdm0) hen
  obtain ⟨t1, t2, t3, t4⟩ := fdm_truth_attitude s1 fdm0
  rcases fill_fdm_f_cases s fdm0 sp fr w s2 f s1 hs1 hres with
    ⟨hf, hOr⟩ | ⟨rotv, s2', hA, hrot, hR, hdcm, hf⟩
  · subst hf
    refine ⟨⟨g1, g2, g3, g4, g5, g6, g7, g8, g9, g10, g11, g12⟩, ?_, ?_⟩
    · intro _
      exact ⟨g13.trans t1, g14.trans t2, g15.trans t3, g16.trans t4⟩
    · intro rotv' heq hne
      rcases hOr with hO | hO
      · rw [hO] at heq
        exact absurd heq (by simp)
      · rw [hO] at heq
        injection heq with h2
        exact absurd h2.symm hne
  · subst hf
    obtain ⟨a1, a2, a3, a4, a5, a6, a7, a8, a9, a10, a11, a12, a13, a14, a15, a16⟩ :=
      fdm_attitude_fields s2' (fdm_smoothed s1 (fdm_truth s1 fdm0))
    refine ⟨⟨a1.trans g1, a2.trans g2, a3.trans g3, a4.trans g4, a5.trans g5, a6.trans g6,
             a7.trans g7, a8.trans g8, a9.trans g9, a10.trans g10, a11.trans g11,
             a12.trans g12⟩, ?_, ?_⟩
    · intro hOr
      rcases hOr with hO | hO
      · rw [hA] at hO
        exact absurd hO (by simp)
      · rw [hA] at hO
        injection hO with h2
        exact absurd h2 hrot
    · intro rotv' heq hne
      refine ⟨s2'.ahrs_rotation_inv, ?_, ?_, ?_, ?_⟩ <;> rw [← hdcm]
      exacts [a13, a14, a15, a16]

/-- C10 witness: a state with the smoothing filter enabled and no mounting
    rotation configured yields a snapshot whose acceleration comes from the
    smoothed state and whose quaternion comes from the truth orientation. -/
theorem c10_snapshot_sources_witness :
    fill_fdm acW10 baseFdm 1 (fun _ => Mat3.identity) 0 =
      some (acW10, fdm_smoothed acW10 (fdm_truth acW10 baseFdm)) ∧
    acW10.smoothing.enabled = true ∧
    (fdm_smoothed acW10 (fdm_truth acW10 baseFdm)).xAccel =
      acW10.smoothing.accel_body.x ∧
    (fdm_smoothed acW10 (fdm_truth acW10 baseFdm)).quaternion =
      Quat.from_rotation_matrix acW10.dcm := by
  have hus : acW10.use_smoothing = false := rfl
  have hor : acW10.ahrs_orientation = none := rfl
  have hsp2 : ¬(acW10.last_speedup ≠ (1 : ℝ) ∧ (0 : ℝ) < 1) := by
    intro hcon
    exact hcon.1 rfl
  have hres : fill_fdm acW10 baseFdm 1 (fun _ => Mat3.identity) 0 =
      some (acW10, fdm_smoothed acW10 (fdm_truth acW10 baseFdm)) := by
    simp only [fill_fdm, hus, Bool.false_eq_true, if_false, hor]
    rw [if_neg hsp2]
  have hs1 : acW10 = if acW10.use_smoothing then smooth_sensors acW10 else acW10 := by
    rw [hus]
    simp
  have hmain := c10_snapshot_sources acW10 baseFdm 1 (fun _ => Mat3.identity) 0 acW10 acW10
    (fdm_smoothed acW10 (fdm_truth acW10 baseFdm)) hs1 hres rfl
  exact ⟨hres, rfl, hmain.1.1, (hmain.2.1 (Or.inl rfl)).2.2.2⟩

theorem fwd_body_constraints (p y : ℝ) (hsp : 0 ≤ Real.sin p) (vbf : Vec3)
    (hy : vbf.y = 0) (hx : 0 ≤ vbf.x) :
    ((Mat3.from_euler 0 p y).transposed.mulVec
      ⟨((Mat3.from_euler 0 p y).mulVec vbf).x, ((Mat3.from_euler 0 p y).mulVec vbf).y,
       if 0 < ((Mat3.from_euler 0 p y).mulVec vbf).z then 0
       else ((Mat3.from_euler 0 p y).mulVec vbf).z⟩).y = 0 ∧
    0 ≤ ((Mat3.from_euler 0 p y).transposed.mulVec
      ⟨((Mat3.from_euler 0 p y).mulVec vbf).x, ((Mat3.from_euler 0 p y).mulVec vbf).y,
       if 0 < ((Mat3.from_euler 0 p y).mulVec vbf).z then 0
       else ((Mat3.from_euler 0 p y).mulVec vbf).z⟩).x := by
  by_cases hz : 0 < ((Mat3.from_euler 0 p y).mulVec vbf).z
  · simp only [if_pos hz]
    have hw : (⟨((Mat3.from_euler 0 p y).mulVec vbf).x, ((Mat3.from_euler 0 p y).mulVec vbf).y,
        (0 : ℝ)⟩ : Vec3) =
        (Mat3.from_euler 0 p y).mulVec vbf -
          ⟨0, 0, ((Mat3.from_euler 0 p y).mulVec vbf).z⟩ := by
      ext <;> simp [Vec3.sub_def]
    rw [hw, Mat3.mulVec_sub, from_euler_r0_tmul, from_euler_r0_transposed_e3]
    have hprod : 0 ≤ Real.sin p * ((Mat3.from_euler 0 p y).mulVec vbf).z :=
      mul_nonneg hsp (le_of_lt hz)
    constructor
    · simp [Vec3.sub_def, hy]
    · simp only [Vec3.sub_def]
      nlinarith [hx, hprod]
  · simp only [if_neg hz]
    have hw : (⟨((Mat3.from_euler 0 p y).mulVec vbf).x, ((Mat3.from_euler 0 p y).mulVec vbf).y,
        ((Mat3.from_euler 0 p y).mulVec vbf).z⟩ : Vec3) = (Mat3.from_euler 0 p y).mulVec vbf :=
      rfl
    rw [hw, from_euler_r0_tmul]
    exact ⟨hy, hx⟩

theorem if_neg_clamp_nonneg (t : ℝ) : (0 : ℝ) ≤ if t < 0 then 0 else t := by
  split
  · exact le_refl (0 : ℝ)
  · next h => exact le_of_not_lt h

theorem fwd_only_branch (s : Aircraft) (rot : Vec3) (n : ℕ) (lr : ℝ)
    (hg : on_groundAt s (position1 s rot)) (hb : s.ground_behavior = .FWD_ONLY) :
    (update_dynamics s rot n lr).gyro = Vec3.zero ∧
    ((velocity1 s rot).length < 5 →
      (update_dynamics s rot n lr).dcm =
        Mat3.from_euler 0 0 ((dcm1 s rot).to_euler).2.2) ∧
    (¬ (velocity1 s rot).length < 5 →
      (update_dynamics s rot n lr).dcm =
        Mat3.from_euler 0 (max ((dcm1 s rot).to_euler).2.1 0) ((dcm1 s rot).to_euler).2.2) ∧
    ((update_dynamics s rot n lr).dcm.transposed.mulVec
        (update_dynamics s rot n lr).velocity_ef).y = 0 ∧
    0 ≤ ((update_dynamics s rot n lr).dcm.transposed.mulVec
        (update_dynamics s rot n lr).velocity_ef).x := by
  have hsp : 0 ≤ Real.sin
      (if (velocity1 s rot).length < 5 then 0 else max ((dcm1 s rot).to_euler).2.1 0) := by
    by_cases hL : (velocity1 s rot).length < 5
    · rw [if_pos hL, Real.sin_zero]
    · rw [if_neg hL]
      apply Real.sin_nonneg_of_nonneg_of_le_pi
      · exact le_max_right _ 0
      · have h1 : -safe_asin ((dcm1 s rot).c.x) ≤ Real.pi / 2 := by
          have h2 := neg_le_safe_asin ((dcm1 s rot).c.x)
          linarith
        have hpi := Real.pi_pos
        apply max_le
        · show -safe_asin ((dcm1 s rot).c.x) ≤ Real.pi
          linarith
        · linarith
  unfold update_dynamics
  rw [adjust_frame_time_gyro, adjust_frame_time_dcm, adjust_frame_time_velocity_ef,
      if_pos hg]
  simp only [hb]
  refine ⟨trivial, fun h => by rw [if_pos h], fun h => by rw [if_neg h], ?_, ?_⟩
  · refine (fwd_body_constraints _ _ hsp _ rfl ?_).1
    dsimp only
    exact if_neg_clamp_nonneg _
  · refine (fwd_body_constraints _ _ hsp _ rfl ?_).2
    dsimp only
    exact if_neg_clamp_nonneg _

/-- C8 (amended): on every tick in ground contact with ForwardOnly behaviour
    the angular rate is zeroed, the final velocity has zero body-y (lateral)
    component and non-negative body-x (forward) component with respect to
    the final attitude, and pitch is forced to exactly zero when the
    three-dimensional speed (the magnitude of the earth-frame velocity,
    including its vertical component — not the horizontal ground speed) is
    below 5 metres per second, but only clamped to be non-negative when that
    speed is at least 5 metres per second. -/
theorem c8_fwd_only_ground_behavior (s : Aircraft) (rot : Vec3) (n : ℕ) (lr : ℝ)
    (hg : on_groundAt s (position1 s rot)) (hb : s.ground_behavior = .FWD_ONLY) :
    (update_dynamics s rot n lr).gyro = Vec3.zero ∧
    ((velocity1 s rot).length < 5 →
      (update_dynamics s rot n lr).dcm =
        Mat3.from_euler 0 0 ((dcm1 s rot).to_euler).2.2) ∧
    (¬ (velocity1 s rot).length < 5 →
      (update_dynamics s rot n lr).dcm =
        Mat3.from_euler 0 (max ((dcm1 s rot).to_euler).2.1 0) ((dcm1 s rot).to_euler).2.2) ∧
    ((update_dynamics s rot n lr).dcm.transposed.mulVec
        (update_dynamics s rot n lr).velocity_ef).y = 0 ∧
    0 ≤ ((update_dynamics s rot n lr).dcm.transposed.mulVec
        (update_dynamics s rot n lr).velocity_ef).x :=
  fwd_only_branch s rot n lr hg hb

/-- C8 witness: a ForwardOnly vehicle in contact moving forward at one metre
    per second (below the threshold) has its pitch forced level, its rate
    zeroed and no lateral velocity. -/
theorem c8_fwd_only_ground_behavior_witness :
    on_groundAt acW8 (position1 acW8 Vec3.zero) ∧
    acW8.ground_behavior = .FWD_ONLY ∧
    (velocity1 acW8 Vec3.zero).length < 5 ∧
    ((update_dynamics acW8 Vec3.zero 0 1200).dcm =
      Mat3.from_euler 0 0 ((dcm1 acW8 Vec3.zero).to_euler).2.2 ∧
     (update_dynamics acW8 Vec3.zero 0 1200).gyro = Vec3.zero ∧
     ((update_dynamics acW8 Vec3.zero 0 1200).dcm.transposed.mulVec
        (update_dynamics acW8 Vec3.zero 0 1200).velocity_ef).y = 0) := by
  have hg : on_groundAt acW8 (position1 acW8 Vec3.zero) := by
    rw [position1_of_rest acW8 rfl rfl rfl]
    unfold on_groundAt haglAt
    simp [acW8, baseAircraft, Vec3.smul, Vec3.add_def, Vec3.zero]
    norm_num
  have hL : (velocity1 acW8 Vec3.zero).length < 5 := by
    rw [velocity1_of_rest acW8 rfl rfl rfl]
    show Vec3.length ⟨1, 0, 0⟩ < 5
    unfold Vec3.length
    rw [show (1 : ℝ) * 1 + 0 * 0 + 0 * 0 = 1 by norm_num, Real.sqrt_one]
    norm_num
  have hm := c8_fwd_only_ground_behavior acW8 Vec3.zero 0 1200 hg rfl
  exact ⟨hg, rfl, hL, hm.2.1 hL, hm.1, hm.2.2.2.1⟩

/-- C8 counterexample: a ForwardOnly vehicle in contact with horizontal
    ground speed 3 metres per second (below the 5 threshold) but descending
    at 4 metres per second keeps its thirty degree pitch, because the code
    compares the three-dimensional speed (here exactly 5) with the
    threshold; this refutes the claim that pitch is forced to zero whenever
    the ground speed is below 5. -/
theorem c8_fwd_only_counterexample :
    on_groundAt acC8 (position1 acC8 Vec3.zero) ∧
    acC8.ground_behavior = .FWD_ONLY ∧
    Real.sqrt ((velocity1 acC8 Vec3.zero).x ^ 2 + (velocity1 acC8 Vec3.zero).y ^ 2) = 3 ∧
    -safe_asin ((update_dynamics acC8 Vec3.zero 0 1200).dcm.c.x) = Real.pi / 6 ∧
    Real.pi / 6 ≠ 0 := by
  have hd1 : dcm1 acC8 Vec3.zero = Mat3.from_euler 0 (Real.pi / 6) 0 :=
    dcm1_of_zero acC8 rfl (normalize_from_euler_r0 (Real.pi / 6) 0)
  have hpyth := Real.sin_sq_add_cos_sq (Real.pi / 6)
  have hraw : accel_earth_raw acC8 Vec3.zero = Vec3.zero := by
    unfold accel_earth_raw
    rw [hd1, from_euler_r0]
    ext
    · simp only [acC8, baseAircraft, Mat3.mulVec, Vec3.dot, Vec3.add_def, Vec3.zero,
        Real.sin_zero, Real.cos_zero]
      ring
    · simp only [acC8, baseAircraft, Mat3.mulVec, Vec3.dot, Vec3.add_def, Vec3.zero,
        Real.sin_zero, Real.cos_zero]
      ring
    · simp only [acC8, baseAircraft, Mat3.mulVec, Vec3.dot, Vec3.add_def, Vec3.zero,
        Real.sin_zero, Real.cos_zero]
      linear_combination (-GRAVITY_MSS) * hpyth
  have hae : accel_earth1 acC8 Vec3.zero = Vec3.zero := by
    unfold accel_earth1
    rw [hraw]
    rw [if_neg]
    simp [Vec3.zero]
  have hv1 : velocity1 acC8 Vec3.zero = ⟨3, 0, -4⟩ := by
    unfold velocity1
    rw [hae]
    ext <;> simp [acC8, baseAircraft, Vec3.smul, Vec3.add_def, Vec3.zero]
  have hp1 : position1 acC8 Vec3.zero = ⟨0.003, 0, 0⟩ := by
    unfold position1
    rw [hv1]
    ext <;> simp only [acC8, baseAircraft, delta_t, Vec3.smul, Vec3.add_def] <;>
      push_cast <;> norm_num
  have hg : on_groundAt acC8 (position1 acC8 Vec3.zero) := by
    rw [hp1]
    unfold on_groundAt haglAt
    simp [acC8, baseAircraft]
    norm_num
  have hL : ¬ (velocity1 acC8 Vec3.zero).length < 5 := by
    rw [hv1]
    unfold Vec3.length
    rw [show (3 : ℝ) * 3 + 0 * 0 + -4 * -4 = 25 by norm_num,
        sqrt_eq_of_sq 25 5 (by norm_num) (by norm_num)]
    norm_num
  have hhoriz : Real.sqrt ((velocity1 acC8 Vec3.zero).x ^ 2 + (velocity1 acC8 Vec3.zero).y ^ 2)
      = 3 := by
    rw [hv1]
    show Real.sqrt ((3 : ℝ) ^ 2 + (0 : ℝ) ^ 2) = 3
    rw [show (3 : ℝ) ^ 2 + (0 : ℝ) ^ 2 = 9 by norm_num,
        sqrt_eq_of_sq 9 3 (by norm_num) (by norm_num)]
  have hsin6 := Real.sin_pi_div_six
  have hcospos : 0 < Real.cos (Real.pi / 6) := by
    rw [Real.cos_pi_div_six]
    positivity
  have harcsin : Real.arcsin (1 / 2) = Real.pi / 6 := by
    rw [← hsin6]
    exact Real.arcsin_sin (by linarith [Real.pi_pos]) (by linarith [Real.pi_pos])
  have hsafe : safe_asin (-(1 / 2) : ℝ) = -(Real.pi / 6) := by
    unfold safe_asin
    rw [if_neg (by norm_num), if_neg (by norm_num), show (-(1 / 2) : ℝ) = -(1 / 2) from rfl,
        Real.arcsin_neg, harcsin]
  have he : (Mat3.from_euler 0 (Real.pi / 6) 0).to_euler = (0, Real.pi / 6, 0) := by
    rw [from_euler_r0]
    unfold Mat3.to_euler
    simp only [Real.sin_zero, Real.cos_zero, mul_zero, mul_one]
    rw [hsin6, atan2_zero_pos _ hcospos, hsafe]
    norm_num
  have hdcm := (fwd_only_branch acC8 Vec3.zero 0 1200 hg rfl).2.2.1 hL
  rw [hd1, he] at hdcm
  have hmax : max (Real.pi / 6) 0 = Real.pi / 6 := max_eq_left (by linarith [Real.pi_pos])
  rw [hmax] at hdcm
  refine ⟨hg, rfl, hhoriz, ?_, ?_⟩
  · rw [hdcm, from_euler_r0]
    show -safe_asin (-Real.sin (Real.pi / 6)) = Real.pi / 6
    rw [hsin6, show (-(1 / 2) : ℝ) = -(1 / 2) from rfl, hsafe]
    norm_num
  · have := Real.pi_pos
    intro hcon
    linarith
